import Mathlib

/-!
# Weather clock serial protocol: frame codec of the two controllers

Shallow embedding of the framing and dispatch code of the display unit
(`App_/uart_comm_task.c`), of the polls of its display task
(`App_/display_task.c`), of the weather sender of the connectivity unit
(`ESP32_C3_Project/main/uart_protocol.c`) and of its receive loop and command
dispatch (`ESP32_C3_Project/main/main.c`).

Conventions of the embedding

* A byte (`uint8_t`) is a natural number below 256.  The operations the code
  applies to bytes (copying, comparison, XOR) map bytes to bytes, so no
  reduction modulo 256 appears.  `uart_rx_index` is a `uint16_t`; a frame is at
  most 4 + 255 bytes long, far below 2^16, so it is not reduced either.
* A C array is a list; `load` and `store` are the indexed read and write.  A
  store past the end of the list is recorded at its offset (the list grows),
  so that what the code does with an offset beyond the declared capacity stays
  visible; the declared capacities are separate constants.  In C such a store
  overruns the array, and what the program does afterwards is not defined: the
  embedding describes the code up to the first store outside an array and not
  beyond.  `UartRxTask_inBounds` and `UartRxTask_runInBounds` say that the
  writes of the display-side decoder stay inside its arrays.
* `UartRxTask` is an endless loop around `HAL_UART_Receive`; the embedding is
  the body of the loop for one received byte (`UartRxTask_byte`) and its
  iteration over the received bytes (`UartRxTask_run`).  A poll that times out
  changes nothing and is not represented.
* Functions defined outside the sources (`ParseWeatherData`,
  `get_current_weather`, `HAL_UART_Transmit`) are parameters of the functions
  that call them; calls of `send_system_time_to_stm32` and
  `uart_send_system_status` are recorded as such.
* Each function is embedded as the calling task runs it, alone: a semaphore is
  obtained exactly when a permit is available, and a queue has no consumer.
-/

namespace WeatherClock

/-! ## Protocol constants (`esp32_config.h`, shared by both controllers) -/

/-- Start marker of a frame. -/
def PROTOCOL_START_BYTE : Nat := 0xAA

/-- Size of the header: start, command, length, checksum. -/
def PROTOCOL_HEADER_SIZE : Nat := 4

/-- Largest payload of a frame. -/
def PROTOCOL_MAX_DATA_SIZE : Nat := 128

/-- Command id of get-weather. -/
def CMD_GET_WEATHER : Nat := 0x01

/-- Command id of system-status. -/
def CMD_SYSTEM_STATUS : Nat := 0x06

/-- Command id of ack. -/
def CMD_ACK : Nat := 0x07

/-! ## Arrays -/

/-- Read of `a[i]`. -/
def load (a : List Nat) (i : Nat) : Nat := a.getD i 0

/-- Write `a[i] = v`. -/
def store (a : List Nat) (i v : Nat) : List Nat :=
  if i < a.length then a.set i v else a ++ List.replicate (i - a.length) 0 ++ [v]

/-- Call `memcpy(dst, src, n)`: the first `n` cells of `dst` are replaced by the
first `n` cells of `src`. -/
def memcpy (dst src : List Nat) (n : Nat) : List Nat := src.take n ++ dst.drop n

/-! ## Frame model -/

/-- Modelled from the spec: the `UARTFrame` struct is declared in a header that is
not among the sources; its fields are the ones `uart_comm_task.c` uses, the
payload field `data` holding `PROTOCOL_MAX_DATA_SIZE` bytes. -/
structure UARTFrame where
  start_byte : Nat
  command : Nat
  data_length : Nat
  checksum : Nat
  data : List Nat
deriving DecidableEq

/-- The frame after `memset(&current_frame, 0, sizeof(UARTFrame))`. -/
def zeroFrame : UARTFrame :=
  { start_byte := 0, command := 0, data_length := 0, checksum := 0,
    data := List.replicate PROTOCOL_MAX_DATA_SIZE 0 }

/-- The payload a frame carries: the first `data_length` bytes of `data`. -/
def UARTFrame.payload (f : UARTFrame) : List Nat := f.data.take f.data_length

/-! ## Checksum and validation (`uart_comm_task.c`) -/

/-- The checksum loop `for (i = ..; i < ..; i++) checksum ^= data[i];` that both
controllers use: `remaining` iterations are left, `i` is the loop index,
`checksum` the accumulator. -/
def xorLoop (data : List Nat) : Nat → Nat → Nat → Nat
  | 0, _, checksum => checksum
  | remaining + 1, i, checksum => xorLoop data remaining (i + 1) (checksum ^^^ load data i)

/-- Source function `CalculateChecksum(data, length)`: the accumulator starts at 0
and the loop runs for `i = 0 .. length - 1`. -/
def CalculateChecksum (data : List Nat) (length : Nat) : Nat :=
  xorLoop data length 0 0

/-- The checksum in the words of the specification: XOR fold of the bytes,
starting from accumulator 0. -/
def xorFold (bytes : List Nat) : Nat := bytes.foldl (fun acc b => acc ^^^ b) 0

/-- Source function `ValidateFrame`. -/
def ValidateFrame (frame : UARTFrame) : Bool :=
  if frame.start_byte ≠ PROTOCOL_START_BYTE then false
  else if frame.data_length > PROTOCOL_MAX_DATA_SIZE then false
  else
    let calculated_checksum := CalculateChecksum frame.data frame.data_length
    if calculated_checksum ≠ frame.checksum then false else true

/-! ## Receive path of the display unit (`UartRxTask`) -/

/-- Static variables of the decoder in `uart_comm_task.c`. -/
structure RxState where
  uart_rx_buffer : List Nat
  uart_rx_index : Nat
  frame_decoding : Bool
  expected_length : Nat
  current_frame : UARTFrame
deriving DecidableEq

/-- Initial decoder state: zero-initialised statics; the capacity of
`uart_rx_buffer` (`UART_RX_BUFFER_SIZE`, declared in a header that is not among
the sources) is a parameter. -/
def rxInit (UART_RX_BUFFER_SIZE : Nat) : RxState :=
  { uart_rx_buffer := List.replicate UART_RX_BUFFER_SIZE 0,
    uart_rx_index := 0,
    frame_decoding := false,
    expected_length := 0,
    current_frame := zeroFrame }

/-- Body of the `UartRxTask` loop for one received byte.  The second component is
`some frame` when the body calls `ProcessReceivedFrame(&current_frame)` and then
puts `EVENT_UART_DATA_RECEIVED` on the event queue, with the contents of
`current_frame` at the call; it is `none` when neither happens. -/
def UartRxTask_byte (s : RxState) (rx_byte : Nat) : RxState × Option UARTFrame :=
  if !s.frame_decoding && rx_byte == PROTOCOL_START_BYTE then
    ({ s with
        frame_decoding := true,
        uart_rx_index := 1,
        current_frame := { s.current_frame with start_byte := rx_byte },
        uart_rx_buffer := store s.uart_rx_buffer 0 rx_byte }, none)
  else if s.frame_decoding then
    let buf := store s.uart_rx_buffer s.uart_rx_index rx_byte
    let idx := s.uart_rx_index + 1
    if idx ≥ PROTOCOL_HEADER_SIZE then
      let expected := if s.expected_length == 0 then load buf 2 else s.expected_length
      if idx ≥ PROTOCOL_HEADER_SIZE + expected then
        let f1 : UARTFrame :=
          { s.current_frame with
              command := load buf 1, data_length := load buf 2, checksum := load buf 3 }
        let f2 : UARTFrame :=
          if expected > 0 then
            { f1 with data := memcpy f1.data (buf.drop PROTOCOL_HEADER_SIZE) expected }
          else f1
        ({ uart_rx_buffer := buf,
           uart_rx_index := 0,
           frame_decoding := false,
           expected_length := 0,
           current_frame := zeroFrame },
         if ValidateFrame f2 then some f2 else none)
      else
        ({ s with uart_rx_buffer := buf, uart_rx_index := idx, expected_length := expected },
         none)
    else
      ({ s with uart_rx_buffer := buf, uart_rx_index := idx }, none)
  else (s, none)

/-- The decoder fed a sequence of received bytes, one at a time: the final state
and the frames handed to `ProcessReceivedFrame`, in order. -/
def UartRxTask_run (s : RxState) : List Nat → RxState × List UARTFrame
  | [] => (s, [])
  | rx_byte :: rest =>
    let r := UartRxTask_byte s rx_byte
    let r2 := UartRxTask_run r.1 rest
    (r2.1, r.2.toList ++ r2.2)

/-- The decoder is idle: no frame in progress, nothing collected, no length
cached. -/
def IsIdle (s : RxState) : Prop :=
  s.frame_decoding = false ∧ s.uart_rx_index = 0 ∧ s.expected_length = 0

instance (s : RxState) : Decidable (IsIdle s) := by
  unfold IsIdle; infer_instance

/-- The decoder is in the middle of a frame of which it has collected the bytes
`pre`, in order: they occupy the first cells of the accumulator, the index is
their number, the start byte is recorded in `current_frame`, and the length is
cached exactly when the header is complete. -/
structure Accumulating (s : RxState) (pre : List Nat) : Prop where
  decoding : s.frame_decoding = true
  index : s.uart_rx_index = pre.length
  held : pre <+: s.uart_rx_buffer
  start : s.current_frame.start_byte = PROTOCOL_START_BYTE
  expected : s.expected_length = if 4 ≤ pre.length then load pre 2 else 0

/-! ## Transmit path of the display unit (`SendUARTFrame`) -/

/-- Counting semaphore of CMSIS-RTOS: at most `max_count` permits, `count`
available. -/
structure Semaphore where
  max_count : Nat
  count : Nat
deriving DecidableEq

/-- Call `osSemaphoreAcquire(sem, timeout)` as seen by the calling task when no
other task releases a permit during the wait: it takes a permit when one is
available and reports a timeout otherwise. -/
def osSemaphoreAcquire (sem : Semaphore) : Semaphore × Bool :=
  if sem.count > 0 then ({ sem with count := sem.count - 1 }, true) else (sem, false)

/-- Call `osSemaphoreRelease(sem)`. -/
def osSemaphoreRelease (sem : Semaphore) : Semaphore :=
  if sem.count < sem.max_count then { sem with count := sem.count + 1 } else sem

/-- The transmit side of the link: the permit `uartTxSemaphore` and the bytes
handed to `HAL_UART_Transmit` so far. -/
structure TxLink where
  uartTxSemaphore : Semaphore
  wire : List Nat
deriving DecidableEq

/-- The link after `CreateFreeRTOSObjects` (`osSemaphoreNew(1, 1, NULL)`), nothing
transmitted yet. -/
def txInit : TxLink := { uartTxSemaphore := { max_count := 1, count := 1 }, wire := [] }

/-- Source function `SendUARTFrame`.  The status `HAL_UART_Transmit` returns is
discarded by the code.  The local `tx_buffer` is not initialised by the code; its
cells are shown as 0 until they are written, and every byte handed to the link
is written first. -/
def SendUARTFrame (l : TxLink) (frame : UARTFrame) : TxLink :=
  match osSemaphoreAcquire l.uartTxSemaphore with
  | (sem, true) =>
    let tx_buffer := List.replicate (PROTOCOL_HEADER_SIZE + PROTOCOL_MAX_DATA_SIZE) 0
    let total_length := PROTOCOL_HEADER_SIZE + frame.data_length
    let tx_buffer := store tx_buffer 0 frame.start_byte
    let tx_buffer := store tx_buffer 1 frame.command
    let tx_buffer := store tx_buffer 2 frame.data_length
    let tx_buffer := store tx_buffer 3 frame.checksum
    let tx_buffer :=
      if frame.data_length > 0 then
        tx_buffer.take PROTOCOL_HEADER_SIZE ++
          memcpy (tx_buffer.drop PROTOCOL_HEADER_SIZE) frame.data frame.data_length
      else tx_buffer
    { uartTxSemaphore := osSemaphoreRelease sem,
      wire := l.wire ++ tx_buffer.take total_length }
  | (sem, false) => { l with uartTxSemaphore := sem }

/-! ## Weather sender of the connectivity unit (`uart_protocol.c`) -/

/-- Source function `uart_send_weather_data`.  The argument is the object
representation of `*weather`, so `sizeof(WeatherData)` is its length (the struct
is declared in a header that is not among the sources).  The result is the byte
sequence passed to `uart_write_bytes`: the first `index` bytes of `buffer`.  The
local `buffer` is not initialised by the code; its cells are shown as 0 until
they are written. -/
def uart_send_weather_data (weather : List Nat) : List Nat :=
  let sizeof_WeatherData := weather.length
  let buffer := List.replicate 128 0
  let index := 0
  let buffer := store buffer index 0xAA
  let index := index + 1
  let buffer := store buffer index 0x01
  let index := index + 1
  let buffer := store buffer index 0
  let index := index + 1
  let buffer := buffer.take index ++ memcpy (buffer.drop index) weather sizeof_WeatherData
  let index := index + sizeof_WeatherData
  let buffer := store buffer 2 (sizeof_WeatherData % 256)
  let checksum := xorLoop buffer (index - 4) 4 0
  let buffer := store buffer 3 checksum
  buffer.take index

/-- The bytes one call of `SendUARTFrame` hands to the link. -/
def sentBytes (l : TxLink) (frame : UARTFrame) : List Nat :=
  (SendUARTFrame l frame).wire.drop l.wire.length

/-- A frame as its producers fill it in: start marker, command, the payload `p`
in the first cells of `data` (the remaining cells hold `pad`), its length and
the checksum `CalculateChecksum` computes over it. -/
def mkFrame (c : Nat) (p pad : List Nat) : UARTFrame :=
  { start_byte := PROTOCOL_START_BYTE,
    command := c,
    data_length := p.length,
    checksum := CalculateChecksum (p ++ pad) p.length,
    data := p ++ pad }

/-- The wire image of a valid frame with command `c` and payload `p`. -/
def frameBytes (c : Nat) (p : List Nat) : List Nat :=
  PROTOCOL_START_BYTE :: c :: p.length :: CalculateChecksum p p.length :: p

/-- The wire image of the valid frame with command `c` and payload `p`, with one
extra start-marker byte inserted in the payload before its byte `i`. -/
def withSpuriousStart (c : Nat) (p : List Nat) (i : Nat) : List Nat :=
  PROTOCOL_START_BYTE :: c :: p.length :: CalculateChecksum p p.length ::
    (p.take i ++ PROTOCOL_START_BYTE :: p.drop i)

/-- What the dispatcher sees of an accepted frame: command and payload. -/
def UARTFrame.message (f : UARTFrame) : Nat × List Nat := (f.command, f.payload)

/-- Flip of bit `k` of the byte `b`. -/
def flipBit (b k : Nat) : Nat := b ^^^ 2 ^ k

/-! ## Command dispatch of the display unit (`ProcessReceivedFrame`) -/

/-- Command id of get-time. -/
def CMD_GET_TIME : Nat := 0x02

/-- Command id of set-time. -/
def CMD_SET_TIME : Nat := 0x03

/-- Command id of set-city. -/
def CMD_SET_CITY : Nat := 0x04

/-- Command id of get-forecast. -/
def CMD_GET_FORECAST : Nat := 0x05

/-- Command id of nack. -/
def CMD_NACK : Nat := 0x08

/-- Command id of error. -/
def CMD_ERROR : Nat := 0xFF

/-- The object representation of a `WeatherData` value: its bytes.  The struct is
declared in a header that is not among the sources. -/
abbrev WeatherData := List Nat

/-- The object representation of a `TimeData` value. -/
abbrev TimeData := List Nat

/-- Modelled from the spec: the `SystemStatus` struct is declared in a header that
is not among the sources; its fields are the ones `main.c` initialises, the flags
being booleans, `battery_level` a byte and `uptime_seconds` a 32-bit counter. -/
structure SystemStatus where
  wifi_connected : Bool
  weather_data_valid : Bool
  time_synced : Bool
  battery_level : Nat
  error_code : Nat
  uptime_seconds : Nat
deriving DecidableEq

/-- The byte a `bool` is stored as. -/
def boolByte (b : Bool) : Nat := if b then 1 else 0

/-- The four bytes `memcpy(dst, &x, 4)` copies from a `uint32_t` on the
little-endian display controller. -/
def bytes_u32 (x : Nat) : List Nat :=
  [x % 256, x / 256 % 256, x / 65536 % 256, x / 16777216 % 256]

/-- Event tags of the event queue. -/
inductive EventType where
  | EVENT_UART_DATA_RECEIVED
  | EVENT_WEATHER_UPDATE
  | EVENT_TIME_UPDATE
  | EVENT_MODE_CHANGE
deriving DecidableEq

/-- A CMSIS-RTOS message queue while no consumer runs: a bounded FIFO, with the
number of ticks that callers of put have spent waiting on it. -/
structure MessageQueue (α : Type) where
  capacity : Nat
  items : List α
  waited : Nat
deriving DecidableEq

/-- Call `osMessageQueueNew(capacity, ..)`. -/
def osMessageQueueNew (α : Type) (capacity : Nat) : MessageQueue α :=
  { capacity := capacity, items := [], waited := 0 }

/-- Call `osMessageQueuePut(q, &msg, 0, timeout)` while no consumer runs: the
message is appended when there is room; otherwise the caller waits for the
whole timeout and the put fails. -/
def osMessageQueuePut {α : Type} (q : MessageQueue α) (msg : α) (timeout : Nat) :
    MessageQueue α :=
  if q.items.length < q.capacity then { q with items := q.items ++ [msg] }
  else { q with waited := q.waited + timeout }

/-- What the receive task of the display unit reads and writes besides its
decoder: `system_status`, the three queues and the transmit side of the link. -/
structure DisplayWorld where
  system_status : SystemStatus
  weatherQueue : MessageQueue WeatherData
  timeQueue : MessageQueue TimeData
  eventQueue : MessageQueue EventType
  link : TxLink
deriving DecidableEq

/-- The world after `main` has initialised `system_status` and
`CreateFreeRTOSObjects` has created the queues and the semaphore. -/
def displayInit : DisplayWorld :=
  { system_status :=
      { wifi_connected := false, weather_data_valid := false, time_synced := false,
        battery_level := 100, error_code := 0, uptime_seconds := 0 },
    weatherQueue := osMessageQueueNew WeatherData 5,
    timeQueue := osMessageQueueNew TimeData 5,
    eventQueue := osMessageQueueNew EventType 20,
    link := txInit }

/-- The local `ack_frame` of `ProcessReceivedFrame`; the initialiser leaves the
cells of `data` zero. -/
def ack_frame : UARTFrame :=
  { start_byte := PROTOCOL_START_BYTE,
    command := CMD_ACK,
    data_length := 0,
    checksum := CalculateChecksum [] 0,
    data := List.replicate PROTOCOL_MAX_DATA_SIZE 0 }

/-- The local `status_data` of `ProcessReceivedFrame` once it is filled in. -/
def status_data (st : SystemStatus) : List Nat :=
  [boolByte st.wifi_connected, boolByte st.weather_data_valid, boolByte st.time_synced,
    st.battery_level] ++ bytes_u32 st.uptime_seconds

/-- The local `status_frame` of `ProcessReceivedFrame` once it is filled in; the
cells of `data` the code does not write are shown as 0. -/
def status_frame (st : SystemStatus) : UARTFrame :=
  { start_byte := PROTOCOL_START_BYTE,
    command := CMD_SYSTEM_STATUS,
    data_length := 8,
    checksum := CalculateChecksum (status_data st) 8,
    data := memcpy (List.replicate PROTOCOL_MAX_DATA_SIZE 0) (status_data st) 8 }

/-- Source function `ProcessReceivedFrame`.  `ParseWeatherData(data, length, &out)`
is defined outside the sources and is a parameter: it yields the parsed value
or fails.  The branches that only print are the identity. -/
def ProcessReceivedFrame (ParseWeatherData : List Nat → Nat → Option WeatherData)
    (w : DisplayWorld) (frame : UARTFrame) : DisplayWorld :=
  if frame.command = CMD_GET_WEATHER then
    match ParseWeatherData frame.data frame.data_length with
    | some weather_data =>
      { w with
          weatherQueue := osMessageQueuePut w.weatherQueue weather_data 0,
          system_status := { w.system_status with weather_data_valid := true },
          link := SendUARTFrame w.link ack_frame }
    | none => w
  else if frame.command = CMD_GET_TIME then w
  else if frame.command = CMD_SYSTEM_STATUS then
    { w with link := SendUARTFrame w.link (status_frame w.system_status) }
  else if frame.command = CMD_ACK then w
  else if frame.command = CMD_NACK then w
  else if frame.command = CMD_ERROR then w
  else w

/-- What `UartRxTask` does with a frame that `ValidateFrame` accepts:
`ProcessReceivedFrame`, then the put of `EVENT_UART_DATA_RECEIVED` on the event
queue with timeout 0. -/
def UartRxTask_accept (ParseWeatherData : List Nat → Nat → Option WeatherData)
    (w : DisplayWorld) (frame : UARTFrame) : DisplayWorld :=
  let w := ProcessReceivedFrame ParseWeatherData w frame
  { w with eventQueue := osMessageQueuePut w.eventQueue EventType.EVENT_UART_DATA_RECEIVED 0 }

/-- Body of the `UartRxTask` loop for one received byte, with its effects on the
world: the decoder step, and `UartRxTask_accept` for an accepted frame. -/
def UartRxTask_iter (ParseWeatherData : List Nat → Nat → Option WeatherData)
    (sw : RxState × DisplayWorld) (rx_byte : Nat) : RxState × DisplayWorld :=
  match UartRxTask_byte sw.1 rx_byte with
  | (s, some frame) => (s, UartRxTask_accept ParseWeatherData sw.2 frame)
  | (s, none) => (s, sw.2)

/-- The receive task fed a sequence of received bytes. -/
def UartRxTask_loop (ParseWeatherData : List Nat → Nat → Option WeatherData)
    (sw : RxState × DisplayWorld) (stream : List Nat) : RxState × DisplayWorld :=
  stream.foldl (UartRxTask_iter ParseWeatherData) sw

/-- Status codes of the HAL. -/
inductive HAL_StatusTypeDef where
  | HAL_OK
  | HAL_ERROR
  | HAL_BUSY
  | HAL_TIMEOUT
deriving DecidableEq

/-- Source function `SendUARTFrame` with the driver made explicit:
`HAL_UART_Transmit` answers each transmit request with a status.  The second
component is the status the call received, which the code discards; it is
`none` when the permit was not obtained and the driver was not called. -/
def SendUARTFrame_hal (HAL_UART_Transmit : List Nat → HAL_StatusTypeDef) (l : TxLink)
    (frame : UARTFrame) : TxLink × Option HAL_StatusTypeDef :=
  match osSemaphoreAcquire l.uartTxSemaphore with
  | (sem, true) =>
    let tx_buffer := List.replicate (PROTOCOL_HEADER_SIZE + PROTOCOL_MAX_DATA_SIZE) 0
    let total_length := PROTOCOL_HEADER_SIZE + frame.data_length
    let tx_buffer := store tx_buffer 0 frame.start_byte
    let tx_buffer := store tx_buffer 1 frame.command
    let tx_buffer := store tx_buffer 2 frame.data_length
    let tx_buffer := store tx_buffer 3 frame.checksum
    let tx_buffer :=
      if frame.data_length > 0 then
        tx_buffer.take PROTOCOL_HEADER_SIZE ++
          memcpy (tx_buffer.drop PROTOCOL_HEADER_SIZE) frame.data frame.data_length
      else tx_buffer
    let status := HAL_UART_Transmit (tx_buffer.take total_length)
    ({ uartTxSemaphore := osSemaphoreRelease sem,
       wire := l.wire ++ tx_buffer.take total_length }, some status)
  | (sem, false) => ({ l with uartTxSemaphore := sem }, none)

/-! ## Receive path and dispatch of the connectivity unit (`main.c`) -/

/-- Size of the local receive buffer `data` of `uart_receive_task`. -/
def UART_BUFFER_SIZE : Nat := 256

/-- Event bit `FORCE_UPDATE_BIT` (`BIT3`). -/
def FORCE_UPDATE_BIT : Nat := 8

/-- Locals of `uart_receive_task` that live across iterations. -/
structure EspRxState where
  data : List Nat
  frame_started : Bool
  expected_length : Nat
  bytes_received : Nat
deriving DecidableEq

/-- The locals at the start of `uart_receive_task`; the cells of `data`, which
the code does not initialise, are shown as 0. -/
def espRxInit : EspRxState :=
  { data := List.replicate UART_BUFFER_SIZE 0,
    frame_started := false,
    expected_length := 0,
    bytes_received := 0 }

/-- Body of the `uart_receive_task` loop for one received byte.  The second
component is `some (data, bytes_received)` when the body calls
`process_stm32_command(data, bytes_received)`. -/
def uart_receive_task_byte (s : EspRxState) (rx_byte : Nat) :
    EspRxState × Option (List Nat × Nat) :=
  if !s.frame_started && rx_byte == PROTOCOL_START_BYTE then
    ({ s with
        frame_started := true,
        bytes_received := 1,
        data := store s.data 0 rx_byte }, none)
  else if s.frame_started then
    let data := store s.data s.bytes_received rx_byte
    let bytes_received := s.bytes_received + 1
    if bytes_received ≥ PROTOCOL_HEADER_SIZE then
      let expected := if s.expected_length == 0 then load data 2 else s.expected_length
      if bytes_received ≥ PROTOCOL_HEADER_SIZE + expected then
        ({ data := data, frame_started := false, expected_length := 0, bytes_received := 0 },
         some (data, bytes_received))
      else
        ({ s with data := data, bytes_received := bytes_received, expected_length := expected },
         none)
    else
      ({ s with data := data, bytes_received := bytes_received }, none)
  else (s, none)

/-- The receive loop fed a sequence of received bytes: the final locals and the
arguments of the calls of `process_stm32_command`, in order. -/
def uart_receive_task_run (s : EspRxState) : List Nat → EspRxState × List (List Nat × Nat)
  | [] => (s, [])
  | rx_byte :: rest =>
    let r := uart_receive_task_byte s rx_byte
    let r2 := uart_receive_task_run r.1 rest
    (r2.1, r.2.toList ++ r2.2)

/-- Call `strncpy(dest, src, n)`: the characters of `src` before its first NUL,
at most `n` of them, followed by NULs up to `n` characters in all, replace the
first `n` cells of `dest`. -/
def strncpy (dest src : List Nat) (n : Nat) : List Nat :=
  let copied := (src.take n).takeWhile (fun ch => ch != 0)
  copied ++ List.replicate (n - copied.length) 0 ++ dest.drop n

/-- Calls of functions of the connectivity unit that are defined outside the
sources. -/
inductive EspCall where
  | send_system_time_to_stm32
  | uart_send_system_status (status_data : List Nat) (length : Nat)
deriving DecidableEq

/-- What `process_stm32_command` reads and writes: the statics of `main.c`, the
bytes passed to `uart_write_bytes` so far, and the calls of functions defined
outside the sources. -/
structure EspWorld where
  current_city : List Nat
  weather_event_group : Nat
  wifi_connected : Bool
  time_synced : Bool
  wire : List Nat
  calls : List EspCall
deriving DecidableEq

/-- The statics of `main.c` at start: `current_city` holds `DEFAULT_CITY`
("Beijing,CN") followed by NULs up to its 32 cells. -/
def espInit : EspWorld :=
  { current_city := [66, 101, 105, 106, 105, 110, 103, 44, 67, 78] ++ List.replicate 22 0,
    weather_event_group := 0,
    wifi_connected := false,
    time_synced := false,
    wire := [],
    calls := [] }

/-- Source function `send_weather_data_to_stm32`.  `get_current_weather` performs
an HTTP request and is a parameter: for a city it yields the fetched value or
fails. -/
def send_weather_data_to_stm32 (get_current_weather : List Nat → Option WeatherData)
    (w : EspWorld) : EspWorld :=
  match get_current_weather w.current_city with
  | some weather => { w with wire := w.wire ++ uart_send_weather_data weather }
  | none => w

/-- Source function `send_system_status_to_stm32`. -/
def send_system_status_to_stm32 (w : EspWorld) : EspWorld :=
  let status_data := [boolByte w.wifi_connected, 1, boolByte w.time_synced, 100, 0, 0, 0, 0]
  { w with calls := w.calls ++ [EspCall.uart_send_system_status status_data 8] }

/-- The checksum test of `process_stm32_command`: the XOR of `data[4 .. length-1]`
against `data[3]`. -/
def checksum_ok (data : List Nat) (length : Nat) : Bool :=
  xorLoop data (length - PROTOCOL_HEADER_SIZE) PROTOCOL_HEADER_SIZE 0 == load data 3

/-- The command switch of `process_stm32_command`. -/
def process_stm32_command_switch (get_current_weather : List Nat → Option WeatherData)
    (w : EspWorld) (data : List Nat) (length : Nat) : EspWorld :=
  let command := load data 1
  if command = CMD_GET_WEATHER then
    let city_id := List.replicate 32 0
    let w :=
      if length > PROTOCOL_HEADER_SIZE then
        let city_id :=
          strncpy city_id (data.drop PROTOCOL_HEADER_SIZE) (length - PROTOCOL_HEADER_SIZE)
        { w with current_city := strncpy w.current_city city_id (32 - 1) }
      else w
    send_weather_data_to_stm32 get_current_weather w
  else if command = CMD_GET_TIME then
    { w with calls := w.calls ++ [EspCall.send_system_time_to_stm32] }
  else if command = CMD_SET_CITY then
    if length > PROTOCOL_HEADER_SIZE then
      let new_city := List.replicate 32 0
      let new_city :=
        strncpy new_city (data.drop PROTOCOL_HEADER_SIZE) (length - PROTOCOL_HEADER_SIZE)
      { w with
          current_city := strncpy w.current_city new_city (32 - 1),
          weather_event_group := w.weather_event_group ||| FORCE_UPDATE_BIT }
    else w
  else if command = CMD_SYSTEM_STATUS then send_system_status_to_stm32 w
  else if command = CMD_GET_FORECAST then w
  else w

/-- Source function `process_stm32_command`: it returns at once when the checksum
test fails and enters the command switch otherwise. -/
def process_stm32_command (get_current_weather : List Nat → Option WeatherData)
    (w : EspWorld) (data : List Nat) (length : Nat) : EspWorld :=
  if checksum_ok data length then
    process_stm32_command_switch get_current_weather w data length
  else w

/-- What the command switch of the connectivity unit sees of a frame that
passed the checksum test: command and payload. -/
def espMessage (call : List Nat × Nat) : Nat × List Nat :=
  (load call.1 1, (call.1.drop PROTOCOL_HEADER_SIZE).take (call.2 - PROTOCOL_HEADER_SIZE))

/-- The frames the receive loop of the connectivity unit hands to its command
switch on a byte stream: the calls of `process_stm32_command` that pass the
checksum test. -/
def espAccepted (s : EspRxState) (stream : List Nat) : List (Nat × List Nat) :=
  ((uart_receive_task_run s stream).2.filter (fun call => checksum_ok call.1 call.2)).map
    espMessage

/-! ## State invariant of the display-side decoder -/

/-- Static variables of `display_task.c` that the polls of `DisplayTask` read and
write. -/
structure DisplayState where
  current_weather : WeatherData
  current_time : TimeData
  weather_updated : Bool
  time_updated : Bool
deriving DecidableEq

/-- The statics of `display_task.c` at start: zero-initialised values (the sizes
of the two structs, declared outside the sources, are parameters) and cleared
flags. -/
def displayTaskInit (sizeof_WeatherData sizeof_TimeData : Nat) : DisplayState :=
  { current_weather := List.replicate sizeof_WeatherData 0,
    current_time := List.replicate sizeof_TimeData 0,
    weather_updated := false,
    time_updated := false }

/-- Call `osMessageQueueGet(q, &msg, 0, 0)`: the oldest message is taken when
there is one; otherwise the get fails at once. -/
def osMessageQueueGet {α : Type} (q : MessageQueue α) : MessageQueue α × Option α :=
  match q.items with
  | [] => (q, none)
  | msg :: rest => ({ q with items := rest }, some msg)

/-- Body of the `DisplayTask` loop: the event poll with its switch, the weather
poll and the time poll.  `RenderModeChange` and `RenderDisplay`, defined outside
the sources, draw on the screen and touch none of these variables; the delay at
the end of the body is not represented. -/
def DisplayTask_iter (dw : DisplayState × DisplayWorld) : DisplayState × DisplayWorld :=
  let d := dw.1
  let w := dw.2
  let got := osMessageQueueGet w.eventQueue
  let w := { w with eventQueue := got.1 }
  let d :=
    match got.2 with
    | some EventType.EVENT_WEATHER_UPDATE => { d with weather_updated := true }
    | some EventType.EVENT_TIME_UPDATE => { d with time_updated := true }
    | some EventType.EVENT_MODE_CHANGE => d
    | some EventType.EVENT_UART_DATA_RECEIVED => d
    | none => d
  let dw1 : DisplayState × DisplayWorld :=
    if d.weather_updated then
      match osMessageQueueGet w.weatherQueue with
      | (q, some new_weather) =>
        ({ d with current_weather := new_weather, weather_updated := false },
         { w with weatherQueue := q })
      | (q, none) => (d, { w with weatherQueue := q })
    else (d, w)
  let d := dw1.1
  let w := dw1.2
  if d.time_updated then
    match osMessageQueueGet w.timeQueue with
    | (q, some new_time) =>
      ({ d with current_time := new_time, time_updated := false }, { w with timeQueue := q })
    | (q, none) => (d, { w with timeQueue := q })
  else (d, w)

/-! ## Writes within the declared capacities -/

/-- The writes of the `UartRxTask` body for one received byte stay inside the
arrays: the store into `uart_rx_buffer` is below the capacity of the array (the
length of the list), and when the byte completes a frame the `memcpy` into
`current_frame.data` copies no more bytes than that field holds. -/
def UartRxTask_inBounds (s : RxState) (rx_byte : Nat) : Prop :=
  if !s.frame_decoding && rx_byte == PROTOCOL_START_BYTE then
    0 < s.uart_rx_buffer.length
  else if s.frame_decoding then
    s.uart_rx_index < s.uart_rx_buffer.length ∧
      (s.uart_rx_index + 1 ≥ PROTOCOL_HEADER_SIZE →
        s.uart_rx_index + 1 ≥ PROTOCOL_HEADER_SIZE +
          (if s.expected_length == 0 then
            load (store s.uart_rx_buffer s.uart_rx_index rx_byte) 2
          else s.expected_length) →
        (if s.expected_length == 0 then
            load (store s.uart_rx_buffer s.uart_rx_index rx_byte) 2
          else s.expected_length) ≤ s.current_frame.data.length)
  else True

instance (s : RxState) (rx_byte : Nat) : Decidable (UartRxTask_inBounds s rx_byte) := by
  unfold UartRxTask_inBounds; infer_instance

/-- Every write the decoder performs while it is fed the byte stream stays inside
the arrays. -/
def UartRxTask_runInBounds (s : RxState) : List Nat → Prop
  | [] => True
  | rx_byte :: rest =>
    UartRxTask_inBounds s rx_byte ∧ UartRxTask_runInBounds (UartRxTask_byte s rx_byte).1 rest

/-- Decision procedure for `UartRxTask_runInBounds`, by recursion on the stream. -/
def UartRxTask_runInBounds.dec : (stream : List Nat) → (s : RxState) →
    Decidable (UartRxTask_runInBounds s stream)
  | [], _ => isTrue trivial
  | rx_byte :: rest, s =>
    @instDecidableAnd _ _ inferInstance
      (UartRxTask_runInBounds.dec rest (UartRxTask_byte s rx_byte).1)

instance (s : RxState) (stream : List Nat) : Decidable (UartRxTask_runInBounds s stream) :=
  UartRxTask_runInBounds.dec stream s

/-! ## The transmit permit as a sequence of events -/

/-- What a producer of outbound frames does to the link, in order: it takes the
transmit permit, hands bytes to the UART driver, gives the permit back. -/
inductive LinkEvent where
  | acquire
  | write (bytes : List Nat)
  | release
deriving DecidableEq

/-- Scan of a sequence of link events: every write happens while the permit is
held (`held` says whether it is held before the first event). -/
def writesUnderPermit.go (held : Bool) : List LinkEvent → Bool
  | [] => true
  | LinkEvent.acquire :: rest => writesUnderPermit.go true rest
  | LinkEvent.release :: rest => writesUnderPermit.go false rest
  | LinkEvent.write _ :: rest => held && writesUnderPermit.go held rest

/-- Every write of the sequence happens between an acquire and the release that
follows it. -/
def writesUnderPermit (events : List LinkEvent) : Bool := writesUnderPermit.go false events

/-! ## Checksum: the loop is the XOR fold -/

theorem foldl_xor_acc (l : List Nat) (acc : Nat) :
    l.foldl (fun a b => a ^^^ b) acc = acc ^^^ xorFold l := by
  unfold xorFold
  induction l generalizing acc with
  | nil => simp
  | cons x xs ih =>
    simp only [List.foldl_cons, Nat.zero_xor]
    rw [ih (acc ^^^ x), ih x, Nat.xor_assoc]

theorem xorFold_nil : xorFold [] = 0 := rfl

theorem xorFold_cons (x : Nat) (xs : List Nat) : xorFold (x :: xs) = x ^^^ xorFold xs := by
  have h := foldl_xor_acc xs x
  simpa [xorFold] using h

theorem xorFold_append (a b : List Nat) : xorFold (a ++ b) = xorFold a ^^^ xorFold b := by
  induction a with
  | nil => simp [xorFold_nil]
  | cons x xs ih => simp [xorFold_cons, ih, Nat.xor_assoc]

theorem load_eq_getElem (l : List Nat) (i : Nat) (h : i < l.length) : load l i = l[i] := by
  simp [load, List.getElem?_eq_getElem h]

theorem xorLoop_eq (data : List Nat) : ∀ (k i cs : Nat), i + k ≤ data.length →
    xorLoop data k i cs = cs ^^^ xorFold ((data.drop i).take k) := by
  intro k
  induction k with
  | zero => intro i cs _; simp [xorLoop, xorFold_nil]
  | succ k ih =>
    intro i cs h
    have hi : i < data.length := by omega
    rw [xorLoop, ih (i + 1) _ (by omega), List.drop_eq_getElem_cons hi, List.take_succ_cons,
      xorFold_cons, load_eq_getElem _ _ hi, Nat.xor_assoc]

theorem CalculateChecksum_take (data : List Nat) (n : Nat) (h : n ≤ data.length) :
    CalculateChecksum data n = xorFold (data.take n) := by
  unfold CalculateChecksum
  rw [xorLoop_eq data n 0 0 (by omega)]
  simp

theorem xor_swap_cancel (a x v : Nat) : (x ^^^ a) ^^^ x ^^^ v = v ^^^ a := by
  have h : (x ^^^ a) ^^^ x ^^^ v = (x ^^^ x) ^^^ (v ^^^ a) := by ac_rfl
  rw [h, Nat.xor_self, Nat.zero_xor]

theorem xorFold_take_set (l : List Nat) : ∀ (i n v : Nat), i < n → n ≤ l.length →
    xorFold ((l.set i v).take n) = xorFold (l.take n) ^^^ load l i ^^^ v := by
  induction l with
  | nil => intro i n v h1 h2; simp at h2; omega
  | cons x xs ih =>
    intro i n v h1 h2
    obtain ⟨m, rfl⟩ : ∃ m, n = m + 1 := ⟨n - 1, by omega⟩
    cases i with
    | zero =>
      simp only [List.set_cons_zero, List.take_succ_cons, xorFold_cons, load, List.getD_cons_zero]
      exact (xor_swap_cancel _ _ _).symm
    | succ j =>
      simp only [List.set_cons_succ, List.take_succ_cons, xorFold_cons]
      rw [ih j m v (by omega) (by simpa using h2)]
      simp only [load, List.getD_cons_succ, Nat.xor_assoc]

theorem ValidateFrame_eq_true_iff (f : UARTFrame)
    (h : f.data_length ≤ PROTOCOL_MAX_DATA_SIZE → f.data_length ≤ f.data.length) :
    ValidateFrame f = true ↔
      f.start_byte = PROTOCOL_START_BYTE ∧ f.data_length ≤ PROTOCOL_MAX_DATA_SIZE ∧
        f.checksum = xorFold (f.data.take f.data_length) := by
  unfold ValidateFrame
  by_cases h1 : f.start_byte = PROTOCOL_START_BYTE
  · by_cases h2 : f.data_length ≤ PROTOCOL_MAX_DATA_SIZE
    · have h3 := CalculateChecksum_take f.data f.data_length (h h2)
      simp only [h1, h2, h3, ne_eq, not_true_eq_false, if_false, gt_iff_lt, not_lt.mpr h2,
        true_and]
      by_cases h4 : xorFold (f.data.take f.data_length) = f.checksum
      · simp [h4]
      · have h5 : ¬ f.checksum = xorFold (f.data.take f.data_length) := fun e => h4 e.symm
        simp [h4, h5]
    · have h2b : f.data_length > PROTOCOL_MAX_DATA_SIZE := by omega
      simp [h1, h2, h2b]
  · simp [h1]

theorem two_pow_ne_zero_nat (k : Nat) : (2 : Nat) ^ k ≠ 0 := by positivity

theorem flipBit_ne (b k : Nat) : flipBit b k ≠ b := by
  intro h
  unfold flipBit at h
  have h2 : b ^^^ 2 ^ k = b ^^^ 0 := by simpa using h
  exact two_pow_ne_zero_nat k (Nat.xor_right_injective h2)

/-! ## Arrays: stores and loads through a collected prefix -/

theorem store_held (pre buf : List Nat) (v : Nat) (h : pre <+: buf) :
    (pre ++ [v]) <+: store buf pre.length v := by
  obtain ⟨rest, rfl⟩ := h
  unfold store
  cases rest with
  | nil => simp
  | cons r rs =>
    refine ⟨rs, ?_⟩
    simp

theorem load_held (pre buf : List Nat) (i : Nat) (h : pre <+: buf) (hi : i < pre.length) :
    load buf i = load pre i := by
  obtain ⟨rest, rfl⟩ := h
  simp [load, List.getElem?_append_left hi]

theorem load_append_left (pre bs : List Nat) (i : Nat) (hi : i < pre.length) :
    load (pre ++ bs) i = load pre i :=
  load_held pre (pre ++ bs) i ⟨bs, rfl⟩ hi

theorem drop_take_held (w buf : List Nat) (L : Nat) (h : w <+: buf)
    (hw : w.length = 4 + L) : (buf.drop 4).take L = w.drop 4 := by
  obtain ⟨rest, rfl⟩ := h
  rw [List.drop_append_of_le_length (by omega), List.take_append_of_le_length (by simp; omega)]
  exact List.take_of_length_le (by simp; omega)

/-! ## The decoder, one byte at a time -/

theorem byte_accumulates_eq (s : RxState) (pre : List Nat) (b : Nat) (h : Accumulating s pre)
    (hmore : pre.length + 1 < 4 ∨ pre.length + 1 < 4 + load (pre ++ [b]) 2) :
    UartRxTask_byte s b =
      ({ s with
          uart_rx_buffer := store s.uart_rx_buffer pre.length b,
          uart_rx_index := pre.length + 1,
          expected_length := if 4 ≤ pre.length + 1 then load (pre ++ [b]) 2 else 0 }, none) := by
  obtain ⟨hd, hi, hh, hs, he⟩ := h
  have hp := store_held pre s.uart_rx_buffer b hh
  unfold UartRxTask_byte
  simp only [hd, hi, Bool.not_true, Bool.false_and, PROTOCOL_HEADER_SIZE]
  by_cases h4 : 4 ≤ pre.length + 1
  · have hL : load (store s.uart_rx_buffer pre.length b) 2 = load (pre ++ [b]) 2 :=
      load_held _ _ 2 hp (by simp; omega)
    have hlt : pre.length + 1 < 4 + load (pre ++ [b]) 2 := by omega
    have hE : (if (s.expected_length == 0) = true then load (store s.uart_rx_buffer pre.length b) 2
        else s.expected_length) = load (pre ++ [b]) 2 := by
      rw [hL]
      by_cases h0 : s.expected_length = 0
      · simp [h0]
      · have h5 : 4 ≤ pre.length := by
          by_contra hn
          rw [if_neg hn] at he
          exact h0 he
        rw [if_pos h5] at he
        simp only [beq_iff_eq, h0, if_false]
        rw [he, load_append_left pre [b] 2 (by omega)]
    simp only [hE]
    have hnge : ¬ pre.length + 1 ≥ 4 + load (pre ++ [b]) 2 := by omega
    simp [h4, hnge]
  · have h5 : ¬ 4 ≤ pre.length := by omega
    rw [if_neg h5] at he
    have hnge : ¬ pre.length + 1 ≥ 4 := by omega
    simp [h4, hnge, he]

theorem byte_accumulates (s : RxState) (pre : List Nat) (b : Nat) (h : Accumulating s pre)
    (hmore : pre.length + 1 < 4 ∨ pre.length + 1 < 4 + load (pre ++ [b]) 2) :
    (UartRxTask_byte s b).2 = none ∧ Accumulating (UartRxTask_byte s b).1 (pre ++ [b]) := by
  rw [byte_accumulates_eq s pre b h hmore]
  refine ⟨rfl, ?_⟩
  obtain ⟨hd, hi, hh, hs, he⟩ := h
  exact
    { decoding := hd
      index := by simp
      held := store_held pre s.uart_rx_buffer b hh
      start := hs
      expected := by simp }

theorem expected_cached (s : RxState) (pre : List Nat) (b : Nat) (h : Accumulating s pre)
    (h4 : 4 ≤ pre.length + 1) :
    (if (s.expected_length == 0) = true then load (store s.uart_rx_buffer pre.length b) 2
        else s.expected_length) = load (pre ++ [b]) 2 := by
  obtain ⟨hd, hi, hh, hs, he⟩ := h
  have hL : load (store s.uart_rx_buffer pre.length b) 2 = load (pre ++ [b]) 2 :=
    load_held _ _ 2 (store_held pre s.uart_rx_buffer b hh) (by simp; omega)
  rw [hL]
  by_cases h0 : s.expected_length = 0
  · simp [h0]
  · have h5 : 4 ≤ pre.length := by
      by_contra hn
      rw [if_neg hn] at he
      exact h0 he
    rw [if_pos h5] at he
    simp only [beq_iff_eq, h0, if_false]
    rw [he, load_append_left pre [b] 2 (by omega)]

theorem byte_completes (s : RxState) (pre : List Nat) (b : Nat) (h : Accumulating s pre)
    (hlen : pre.length + 1 = 4 + load (pre ++ [b]) 2) :
    ∃ f : UARTFrame,
      UartRxTask_byte s b =
        ({ uart_rx_buffer := store s.uart_rx_buffer pre.length b,
           uart_rx_index := 0,
           frame_decoding := false,
           expected_length := 0,
           current_frame := zeroFrame }, if ValidateFrame f then some f else none) ∧
      f.start_byte = PROTOCOL_START_BYTE ∧ f.command = load (pre ++ [b]) 1 ∧
      f.data_length = load (pre ++ [b]) 2 ∧ f.checksum = load (pre ++ [b]) 3 ∧
      f.payload = (pre ++ [b]).drop 4 ∧ f.data_length ≤ f.data.length := by
  have hE := expected_cached s pre b h (by omega)
  obtain ⟨hd, hi, hh, hs, he⟩ := h
  have hp := store_held pre s.uart_rx_buffer b hh
  have h4 : pre.length + 1 ≥ 4 := by omega
  have hL1 : load (store s.uart_rx_buffer pre.length b) 1 = load (pre ++ [b]) 1 :=
    load_held _ _ 1 hp (by simp; omega)
  have hL2 : load (store s.uart_rx_buffer pre.length b) 2 = load (pre ++ [b]) 2 :=
    load_held _ _ 2 hp (by simp; omega)
  have hL3 : load (store s.uart_rx_buffer pre.length b) 3 = load (pre ++ [b]) 3 :=
    load_held _ _ 3 hp (by simp; omega)
  have hdrop := drop_take_held (pre ++ [b]) _ (load (pre ++ [b]) 2) hp (by simp; omega)
  have hge : pre.length + 1 ≥ 4 + load (pre ++ [b]) 2 := by omega
  rw [hL2] at hE
  unfold UartRxTask_byte
  simp only [hd, hi, Bool.not_true, Bool.false_and, PROTOCOL_HEADER_SIZE, hE, hL1, hL2, hL3, hs,
    h4, hge, if_true, Bool.false_eq_true, if_false]
  refine ⟨_, rfl, ?_⟩
  by_cases hpos : load (pre ++ [b]) 2 > 0
  · simp only [hpos, if_true, UARTFrame.payload, memcpy, true_and]
    rw [hdrop]
    have hlen4 : ((pre ++ [b]).drop 4).length = load (pre ++ [b]) 2 := by
      simp only [List.length_drop, List.length_append, List.length_singleton]
      omega
    constructor
    · rw [List.take_append_of_le_length (by omega)]
      exact List.take_of_length_le (by omega)
    · simp only [List.length_append]
      omega
  · simp only [hpos, if_false, UARTFrame.payload, true_and]
    have h0 : load (pre ++ [b]) 2 = 0 := by omega
    have hnil : (pre ++ [b]).drop 4 = [] := by
      apply List.drop_eq_nil_of_le
      simp only [List.length_append, List.length_singleton]
      omega
    rw [h0, hnil]
    simp
/-! ## The decoder over a whole frame -/

theorem run_cons (s : RxState) (b : Nat) (rest : List Nat) :
    UartRxTask_run s (b :: rest) =
      ((UartRxTask_run (UartRxTask_byte s b).1 rest).1,
        (UartRxTask_byte s b).2.toList ++ (UartRxTask_run (UartRxTask_byte s b).1 rest).2) := rfl

theorem run_append (s : RxState) (a b : List Nat) :
    UartRxTask_run s (a ++ b) =
      ((UartRxTask_run (UartRxTask_run s a).1 b).1,
        (UartRxTask_run s a).2 ++ (UartRxTask_run (UartRxTask_run s a).1 b).2) := by
  induction a generalizing s with
  | nil => simp [UartRxTask_run]
  | cons x xs ih => simp [UartRxTask_run, ih, List.append_assoc]

theorem run_accumulating : ∀ (bs pre : List Nat) (s : RxState), Accumulating s pre → bs ≠ [] →
    (pre ++ bs).length = 4 + load (pre ++ bs) 2 →
    ∃ f : UARTFrame,
      (UartRxTask_run s bs).2 = (if ValidateFrame f then [f] else []) ∧
      IsIdle (UartRxTask_run s bs).1 ∧ (UartRxTask_run s bs).1.current_frame = zeroFrame ∧
      f.start_byte = PROTOCOL_START_BYTE ∧ f.command = load (pre ++ bs) 1 ∧
      f.data_length = load (pre ++ bs) 2 ∧ f.checksum = load (pre ++ bs) 3 ∧
      f.payload = (pre ++ bs).drop 4 ∧ f.data_length ≤ f.data.length := by
  intro bs
  induction bs with
  | nil => intro pre s _ h; exact absurd rfl h
  | cons b rest ih =>
    intro pre s hacc _ hlen
    by_cases hrest : rest = []
    · subst hrest
      obtain ⟨f, hstep, h1, h2, h3, h4, h5, h6⟩ :=
        byte_completes s pre b hacc (by simpa using hlen)
      refine ⟨f, ?_, ?_, ?_, h1, h2, h3, h4, h5, h6⟩
      · simp only [UartRxTask_run, hstep, List.append_nil]
        by_cases hv : ValidateFrame f = true <;> simp [hv]
      · simp [UartRxTask_run, hstep, IsIdle]
      · simp [UartRxTask_run, hstep]
    · have hrl : 1 ≤ rest.length := by
        cases rest with
        | nil => exact absurd rfl hrest
        | cons _ _ => simp
      have happ : pre ++ b :: rest = (pre ++ [b]) ++ rest := by simp
      have hmore : pre.length + 1 < 4 ∨ pre.length + 1 < 4 + load (pre ++ [b]) 2 := by
        by_cases h3 : pre.length + 1 < 4
        · exact Or.inl h3
        · right
          have hl : load (pre ++ b :: rest) 2 = load (pre ++ [b]) 2 := by
            rw [happ]
            exact load_append_left _ _ 2 (by simp; omega)
          rw [← hl, ← hlen]
          simp only [List.length_append, List.length_cons]
          omega
      obtain ⟨hnone, hacc2⟩ := byte_accumulates s pre b hacc hmore
      obtain ⟨f, hout, hrestf⟩ := ih (pre ++ [b]) (UartRxTask_byte s b).1 hacc2 hrest
        (by rw [← happ]; exact hlen)
      refine ⟨f, ?_, ?_⟩
      · rw [run_cons]
        simp only [hnone, Option.toList, List.nil_append]
        exact hout
      · rw [happ, run_cons]
        exact hrestf

theorem byte_start (s : RxState) (hs : IsIdle s) :
    (UartRxTask_byte s PROTOCOL_START_BYTE).2 = none ∧
      Accumulating (UartRxTask_byte s PROTOCOL_START_BYTE).1 [PROTOCOL_START_BYTE] := by
  obtain ⟨hd, _, he⟩ := hs
  unfold UartRxTask_byte
  simp only [hd, Bool.not_false, Bool.true_and, beq_self_eq_true, if_true, true_and]
  exact
    { decoding := rfl
      index := rfl
      held := store_held [] s.uart_rx_buffer PROTOCOL_START_BYTE ⟨_, rfl⟩
      start := rfl
      expected := by simpa using he }

theorem run_frame (s : RxState) (hs : IsIdle s) (c L k : Nat) (p : List Nat)
    (hp : p.length = L) :
    ∃ f : UARTFrame,
      (UartRxTask_run s (PROTOCOL_START_BYTE :: c :: L :: k :: p)).2 =
        (if L ≤ PROTOCOL_MAX_DATA_SIZE ∧ k = xorFold p then [f] else []) ∧
      IsIdle (UartRxTask_run s (PROTOCOL_START_BYTE :: c :: L :: k :: p)).1 ∧
      (UartRxTask_run s (PROTOCOL_START_BYTE :: c :: L :: k :: p)).1.current_frame = zeroFrame ∧
      f.start_byte = PROTOCOL_START_BYTE ∧ f.command = c ∧ f.data_length = L ∧
      f.checksum = k ∧ f.payload = p := by
  obtain ⟨hnone, hacc⟩ := byte_start s hs
  obtain ⟨f, hout, hidle, hzero, h1, h2, h3, h4, h5, h6⟩ :=
    run_accumulating (c :: L :: k :: p) [PROTOCOL_START_BYTE] _ hacc (by simp)
      (by simp [load, hp]; omega)
  simp only [List.singleton_append, load, List.getD_cons_succ, List.getD_cons_zero,
    List.drop_succ_cons, List.drop_zero] at h2 h3 h4 h5
  have hv := ValidateFrame_eq_true_iff f (fun _ => h6)
  rw [h1, h3, h4] at hv
  simp only [UARTFrame.payload, h3] at h5
  rw [h5] at hv
  refine ⟨f, ?_, ?_, ?_, h1, h2, h3, h4, by simp [UARTFrame.payload, h3, h5]⟩
  · rw [run_cons]
    simp only [hnone, Option.toList, List.nil_append]
    rw [hout]
    by_cases hc : L ≤ PROTOCOL_MAX_DATA_SIZE ∧ k = xorFold p
    · rw [if_pos hc, if_pos (hv.mpr ⟨rfl, hc⟩)]
    · rw [if_neg hc, if_neg (fun hval => hc (hv.mp hval).2)]
  · rw [run_cons]
    exact hidle
  · rw [run_cons]
    exact hzero

theorem take_header (a b c d n : Nat) (T D : List Nat) (h : T.length = n) :
    List.take (4 + n) (a :: b :: c :: d :: (T ++ D)) = a :: b :: c :: d :: T := by
  have h4 : 4 + n = n + 1 + 1 + 1 + 1 := by omega
  rw [h4]
  simp only [List.take_succ_cons]
  rw [← h, List.take_left]

theorem store_header (buf : List Nat) (a b c d : Nat) (h : 4 ≤ buf.length) :
    store (store (store (store buf 0 a) 1 b) 2 c) 3 d = a :: b :: c :: d :: buf.drop 4 := by
  match buf, h with
  | x0 :: x1 :: x2 :: x3 :: rest, _ => simp [store]

theorem SendUARTFrame_wire (l : TxLink) (frame : UARTFrame)
    (hperm : 0 < l.uartTxSemaphore.count) (hlen : frame.data_length ≤ frame.data.length) :
    (SendUARTFrame l frame).wire =
      l.wire ++ (frame.start_byte :: frame.command :: frame.data_length :: frame.checksum ::
        frame.data.take frame.data_length) := by
  unfold SendUARTFrame osSemaphoreAcquire
  simp only [gt_iff_lt, hperm, if_true]
  congr 1
  rw [store_header _ _ _ _ _ (by simp [PROTOCOL_HEADER_SIZE])]
  by_cases h0 : 0 < frame.data_length
  · simp only [h0, if_true, PROTOCOL_HEADER_SIZE, memcpy, List.take_succ_cons, List.take_zero,
      List.drop_succ_cons, List.drop_zero, List.cons_append, List.nil_append]
    exact take_header _ _ _ _ _ _ _ (by simp; omega)
  · have hz : frame.data_length = 0 := by omega
    simp [hz, PROTOCOL_HEADER_SIZE]

theorem byte_output_valid (s : RxState) (b : Nat) (f : UARTFrame)
    (h : (UartRxTask_byte s b).2 = some f) : ValidateFrame f = true := by
  unfold UartRxTask_byte at h
  dsimp only at h
  generalize (if (s.expected_length == 0) = true then
    load (store s.uart_rx_buffer s.uart_rx_index b) 2 else s.expected_length) = E at h
  generalize (if E > 0 then
      ({ start_byte := s.current_frame.start_byte,
         command := load (store s.uart_rx_buffer s.uart_rx_index b) 1,
         data_length := load (store s.uart_rx_buffer s.uart_rx_index b) 2,
         checksum := load (store s.uart_rx_buffer s.uart_rx_index b) 3,
         data := memcpy s.current_frame.data
           (List.drop PROTOCOL_HEADER_SIZE (store s.uart_rx_buffer s.uart_rx_index b)) E } :
        UARTFrame)
    else
      { start_byte := s.current_frame.start_byte,
        command := load (store s.uart_rx_buffer s.uart_rx_index b) 1,
        data_length := load (store s.uart_rx_buffer s.uart_rx_index b) 2,
        checksum := load (store s.uart_rx_buffer s.uart_rx_index b) 3,
        data := s.current_frame.data }) = X at h
  split_ifs at h with c1 c2 c3 c4 c5
  simp only [Option.some.injEq] at h
  rw [← h]
  exact c5

theorem ValidateFrame_length (f : UARTFrame) (h : ValidateFrame f = true) :
    f.data_length ≤ PROTOCOL_MAX_DATA_SIZE := by
  unfold ValidateFrame at h
  split_ifs at h
  omega

theorem run_output_valid (bytes : List Nat) : ∀ (s : RxState),
    ∀ f ∈ (UartRxTask_run s bytes).2, ValidateFrame f = true := by
  induction bytes with
  | nil => intro s f hf; simp [UartRxTask_run] at hf
  | cons b rest ih =>
    intro s f hf
    rw [run_cons] at hf
    simp only [List.mem_append] at hf
    rcases hf with hf | hf
    · cases hb : (UartRxTask_byte s b).2 with
      | none => simp [hb] at hf
      | some g =>
        simp [hb] at hf
        subst hf
        exact byte_output_valid s b _ hb
    · exact ih _ f hf

theorem load_store_zero (buf : List Nat) (v : Nat) : load (store buf 0 v) 0 = v := by
  have h : [v] <+: store buf 0 v := by simpa using store_held [] buf v ⟨_, rfl⟩
  rw [load_held [v] _ 0 h (by simp)]
  simp [load]

theorem sentBytes_mkFrame (l : TxLink) (c : Nat) (p pad : List Nat)
    (hperm : 0 < l.uartTxSemaphore.count) :
    sentBytes l (mkFrame c p pad) = PROTOCOL_START_BYTE :: c :: p.length :: xorFold p :: p := by
  unfold sentBytes
  rw [SendUARTFrame_wire l _ hperm (by simp [mkFrame])]
  simp [mkFrame, CalculateChecksum_take]

theorem xorFold_replicate_zero (n : Nat) : xorFold (List.replicate n 0) = 0 := by
  induction n with
  | zero => rfl
  | succ n ih => rw [List.replicate_succ, xorFold_cons, ih]; rfl

theorem byte_idle_other (s : RxState) (b : Nat) (hs : s.frame_decoding = false)
    (hb : b ≠ PROTOCOL_START_BYTE) : UartRxTask_byte s b = (s, none) := by
  simp [UartRxTask_byte, hs, hb]

theorem frameBytes_run (s : RxState) (hs : IsIdle s) (c : Nat) (p : List Nat)
    (hp : p.length ≤ PROTOCOL_MAX_DATA_SIZE) :
    (UartRxTask_run s (frameBytes c p)).2.map UARTFrame.message = [(c, p)] ∧
      IsIdle (UartRxTask_run s (frameBytes c p)).1 := by
  unfold frameBytes
  rw [CalculateChecksum_take p p.length (le_refl _), List.take_length]
  obtain ⟨f, hout, hidle, _, _, hc, _, _, hpay⟩ := run_frame s hs c p.length (xorFold p) p rfl
  rw [if_pos ⟨hp, rfl⟩] at hout
  refine ⟨?_, hidle⟩
  rw [hout]
  simp [UARTFrame.message, hc, hpay]

/-! ## The weather sender writes its checksum over the first payload byte -/

theorem store_header3 (buf : List Nat) (a b c : Nat) (h : 3 ≤ buf.length) :
    store (store (store buf 0 a) 1 b) 2 c = a :: b :: c :: buf.drop 3 := by
  match buf, h with
  | x0 :: x1 :: x2 :: rest, _ => simp [store]

theorem uart_send_weather_data_eq (x : Nat) (rest : List Nat)
    (hfit : 3 + (x :: rest).length ≤ 128) :
    uart_send_weather_data (x :: rest) =
      0xAA :: 0x01 :: (x :: rest).length :: xorFold rest :: rest := by
  have hn : rest.length + 1 ≤ 125 := by simpa using (by omega : (x :: rest).length ≤ 125)
  unfold uart_send_weather_data
  simp only [Nat.zero_add, Nat.reduceAdd]
  rw [store_header3 _ _ _ _ (by simp)]
  generalize List.drop 3 (List.replicate 128 0) = T
  have hmod : (x :: rest).length % 256 = rest.length + 1 := by
    simp only [List.length_cons]
    omega
  have hB4 : List.take 3 (0xAA :: 0x01 :: 0 :: T) ++
      memcpy (List.drop 3 (0xAA :: 0x01 :: 0 :: T)) (x :: rest) (x :: rest).length =
      0xAA :: 0x01 :: 0 :: x :: (rest ++ T.drop (rest.length + 1)) := by
    simp [memcpy]
  rw [hB4, hmod]
  have hB5 : store (0xAA :: 0x01 :: 0 :: x :: (rest ++ T.drop (rest.length + 1))) 2
      (rest.length + 1) = 0xAA :: 0x01 :: (rest.length + 1) :: x ::
        (rest ++ T.drop (rest.length + 1)) := by
    simp [store]
  rw [hB5]
  have hcs : xorLoop (0xAA :: 0x01 :: (rest.length + 1) :: x ::
      (rest ++ T.drop (rest.length + 1))) (3 + (x :: rest).length - 4) 4 0 = xorFold rest := by
    rw [xorLoop_eq _ _ _ _ (by simp; omega)]
    have h1 : 3 + (x :: rest).length - 4 = rest.length := by simp; omega
    rw [h1]
    simp
  rw [hcs]
  have hB6 : store (0xAA :: 0x01 :: (rest.length + 1) :: x ::
      (rest ++ T.drop (rest.length + 1))) 3 (xorFold rest) =
      0xAA :: 0x01 :: (rest.length + 1) :: xorFold rest ::
        (rest ++ T.drop (rest.length + 1)) := by
    simp [store]
  rw [hB6]
  have h34 : 3 + (x :: rest).length = 4 + rest.length := by simp; omega
  rw [h34, take_header _ _ _ _ _ _ _ rfl]
  rfl

/-! ## A frame cut short -/

theorem run_partial : ∀ (bs pre : List Nat) (s : RxState), Accumulating s pre →
    ((pre ++ bs).length < 4 ∨ (pre ++ bs).length < 4 + load (pre ++ bs) 2) →
    (UartRxTask_run s bs).2 = [] ∧ Accumulating (UartRxTask_run s bs).1 (pre ++ bs) := by
  intro bs
  induction bs with
  | nil => intro pre s hacc _; simpa [UartRxTask_run] using hacc
  | cons b rest ih =>
    intro pre s hacc hlen
    have happ : pre ++ b :: rest = (pre ++ [b]) ++ rest := by simp
    have hmore : pre.length + 1 < 4 ∨ pre.length + 1 < 4 + load (pre ++ [b]) 2 := by
      by_cases h3 : pre.length + 1 < 4
      · exact Or.inl h3
      · right
        have hl : load (pre ++ b :: rest) 2 = load (pre ++ [b]) 2 := by
          rw [happ]
          exact load_append_left _ _ 2 (by simp; omega)
        rw [← hl]
        simp only [List.length_append, List.length_cons] at hlen
        omega
    obtain ⟨hnone, hacc2⟩ := byte_accumulates s pre b hacc hmore
    obtain ⟨hout, hacc3⟩ := ih (pre ++ [b]) (UartRxTask_byte s b).1 hacc2
      (by rw [← happ]; exact hlen)
    rw [run_cons]
    refine ⟨?_, ?_⟩
    · simp only [hnone, Option.toList, List.nil_append]
      exact hout
    · rw [happ]
      exact hacc3

theorem run_weather_frame (s : RxState) (hs : IsIdle s) (x : Nat) (rest : List Nat)
    (hfit : 3 + (x :: rest).length ≤ 128) :
    (UartRxTask_run s (uart_send_weather_data (x :: rest))).2 = [] ∧
      (UartRxTask_run s (uart_send_weather_data (x :: rest))).1.frame_decoding = true ∧
      (UartRxTask_run s (uart_send_weather_data (x :: rest))).1.uart_rx_index =
        3 + (x :: rest).length := by
  rw [uart_send_weather_data_eq x rest hfit]
  obtain ⟨hnone, hacc⟩ := byte_start s hs
  obtain ⟨hout, hacc2⟩ := run_partial
    (0x01 :: (x :: rest).length :: xorFold rest :: rest) [PROTOCOL_START_BYTE] _ hacc
    (Or.inr (by simp [load]; omega))
  have hrun : UartRxTask_run s (0xAA :: 0x01 :: (x :: rest).length :: xorFold rest :: rest) =
      UartRxTask_run s
        (PROTOCOL_START_BYTE :: 0x01 :: (x :: rest).length :: xorFold rest :: rest) := rfl
  rw [hrun, run_cons]
  refine ⟨?_, hacc2.decoding, ?_⟩
  · simp only [hnone, Option.toList, List.nil_append]
    exact hout
  · rw [hacc2.index]
    simp
    omega

/-! ## The receive task and its world -/

theorem loop_cons (parse : List Nat → Nat → Option WeatherData) (sw : RxState × DisplayWorld)
    (b : Nat) (rest : List Nat) :
    UartRxTask_loop parse sw (b :: rest) = UartRxTask_loop parse (UartRxTask_iter parse sw b) rest :=
  rfl

theorem loop_eq_run (parse : List Nat → Nat → Option WeatherData) (stream : List Nat) :
    ∀ (s : RxState) (w : DisplayWorld),
      UartRxTask_loop parse (s, w) stream =
        ((UartRxTask_run s stream).1,
          (UartRxTask_run s stream).2.foldl (UartRxTask_accept parse) w) := by
  induction stream with
  | nil => intro s w; rfl
  | cons b rest ih =>
    intro s w
    rw [loop_cons, run_cons]
    cases hb : UartRxTask_byte s b with
    | mk s1 o =>
      cases o with
      | none => simp [UartRxTask_iter, hb, ih]
      | some f => simp [UartRxTask_iter, hb, ih]

theorem ProcessReceivedFrame_other (parse : List Nat → Nat → Option WeatherData)
    (w : DisplayWorld) (f : UARTFrame) (h1 : f.command ≠ CMD_GET_WEATHER)
    (h6 : f.command ≠ CMD_SYSTEM_STATUS) : ProcessReceivedFrame parse w f = w := by
  unfold ProcessReceivedFrame
  simp [h1, h6]

theorem ProcessReceivedFrame_eventQueue (parse : List Nat → Nat → Option WeatherData)
    (w : DisplayWorld) (f : UARTFrame) :
    (ProcessReceivedFrame parse w f).eventQueue = w.eventQueue := by
  unfold ProcessReceivedFrame
  split_ifs
  · cases parse f.data f.data_length <;> rfl
  all_goals rfl

theorem accept_eventQueue (parse : List Nat → Nat → Option WeatherData)
    (w : DisplayWorld) (f : UARTFrame) :
    (UartRxTask_accept parse w f).eventQueue =
      osMessageQueuePut w.eventQueue EventType.EVENT_UART_DATA_RECEIVED 0 := by
  simp [UartRxTask_accept, ProcessReceivedFrame_eventQueue]

theorem put_zero_length {α : Type} (q : MessageQueue α) (msg : α)
    (h : q.items.length ≤ q.capacity) :
    (osMessageQueuePut q msg 0).items.length = min (q.items.length + 1) q.capacity ∧
      (osMessageQueuePut q msg 0).capacity = q.capacity ∧
      (osMessageQueuePut q msg 0).waited = q.waited := by
  unfold osMessageQueuePut
  by_cases hr : q.items.length < q.capacity
  · simp [hr]
    omega
  · simp [hr]
    omega

theorem accept_fold_eventQueue (parse : List Nat → Nat → Option WeatherData)
    (frames : List UARTFrame) : ∀ (w : DisplayWorld),
    w.eventQueue.items.length ≤ w.eventQueue.capacity →
    (frames.foldl (UartRxTask_accept parse) w).eventQueue.items.length =
        min (w.eventQueue.items.length + frames.length) w.eventQueue.capacity ∧
      (frames.foldl (UartRxTask_accept parse) w).eventQueue.waited = w.eventQueue.waited := by
  induction frames with
  | nil => intro w h; simp; omega
  | cons f rest ih =>
    intro w h
    obtain ⟨hl, hc, hw⟩ := put_zero_length w.eventQueue EventType.EVENT_UART_DATA_RECEIVED h
    rw [← accept_eventQueue parse w f] at hl hc hw
    have h2 : (UartRxTask_accept parse w f).eventQueue.items.length ≤
        (UartRxTask_accept parse w f).eventQueue.capacity := by omega
    obtain ⟨ih1, ih2⟩ := ih (UartRxTask_accept parse w f) h2
    simp only [List.foldl_cons, List.length_cons]
    rw [ih1, ih2, hl, hc, hw]
    refine ⟨?_, rfl⟩
    omega

theorem status_frame_wire (l : TxLink) (st : SystemStatus)
    (hperm : 0 < l.uartTxSemaphore.count) :
    (SendUARTFrame l (status_frame st)).wire =
      l.wire ++ (0xAA :: 0x06 :: 0x08 :: xorFold (status_data st) :: status_data st) := by
  have hlen : (status_data st).length = 8 := by simp [status_data, bytes_u32]
  rw [SendUARTFrame_wire l _ hperm (by simp [status_frame, memcpy, hlen])]
  have hcs : CalculateChecksum (status_data st) 8 = xorFold (status_data st) := by
    rw [CalculateChecksum_take _ _ (by omega), ← hlen, List.take_length]
  have htake : List.take 8 (memcpy (List.replicate PROTOCOL_MAX_DATA_SIZE 0) (status_data st) 8)
      = status_data st := by
    unfold memcpy
    rw [List.take_append_of_le_length (by simp [hlen]), List.take_take]
    simp [← hlen]
  simp only [status_frame, hcs, htake]
  rfl

theorem ack_frame_wire (l : TxLink) (hperm : 0 < l.uartTxSemaphore.count) :
    (SendUARTFrame l ack_frame).wire = l.wire ++ [0xAA, 0x07, 0x00, 0x00] := by
  rw [SendUARTFrame_wire l _ hperm (by simp [ack_frame])]
  simp [ack_frame, PROTOCOL_START_BYTE, CMD_ACK, CalculateChecksum, xorLoop]

/-! ## Dispatch of the connectivity unit -/

theorem frameBytes_checksum_ok (c : Nat) (p tail : List Nat) :
    checksum_ok (frameBytes c p ++ tail) (4 + p.length) = true := by
  unfold checksum_ok frameBytes
  simp only [PROTOCOL_HEADER_SIZE, Nat.add_sub_cancel_left, List.cons_append]
  rw [xorLoop_eq _ _ _ _ (by simp; omega), CalculateChecksum_take p p.length (le_refl _)]
  simp [load]

theorem takeWhile_nonzero (p rest : List Nat) (hnz : ∀ ch ∈ p, ch ≠ 0) :
    (p ++ 0 :: rest).takeWhile (fun ch => ch != 0) = p ∧
      p.takeWhile (fun ch => ch != 0) = p := by
  induction p with
  | nil => simp
  | cons x xs ih =>
    have hx : x ≠ 0 := hnz x (by simp)
    have hxs : ∀ ch ∈ xs, ch ≠ 0 := fun ch h => hnz ch (by simp [h])
    obtain ⟨h1, h2⟩ := ih hxs
    simp [List.takeWhile_cons, hx, h1, h2]

theorem strncpy_payload (dest p tail : List Nat) (hnz : ∀ ch ∈ p, ch ≠ 0) :
    strncpy dest (p ++ tail) p.length = p ++ dest.drop p.length := by
  unfold strncpy
  simp [(takeWhile_nonzero p [] hnz).2]

theorem strncpy_city (cur p : List Nat) (hnz : ∀ ch ∈ p, ch ≠ 0) (hp : p.length ≤ 31) :
    strncpy cur (p ++ List.replicate (32 - p.length) 0) (32 - 1) =
      p ++ List.replicate (31 - p.length) 0 ++ cur.drop 31 := by
  unfold strncpy
  have htake : List.take (32 - 1) (p ++ List.replicate (32 - p.length) 0) =
      p ++ List.replicate (31 - p.length) 0 := by
    rw [List.take_append_eq_append_take, List.take_of_length_le (by omega)]
    simp
    omega
  rw [htake]
  have htw : (p ++ List.replicate (31 - p.length) 0).takeWhile (fun ch => ch != 0) = p := by
    by_cases h31 : p.length = 31
    · simp [h31, (takeWhile_nonzero p [] hnz).2]
    · have hrep : List.replicate (31 - p.length) 0 =
          0 :: List.replicate (30 - p.length) 0 := by
        have : 31 - p.length = (30 - p.length) + 1 := by omega
        rw [this, List.replicate_succ]
      rw [hrep]
      exact (takeWhile_nonzero p _ hnz).1
  simp only [htw, Nat.reduceSub]

theorem frameBytes_command (c : Nat) (p tail : List Nat) :
    load (frameBytes c p ++ tail) 1 = c := by
  simp [frameBytes, load]

theorem frameBytes_drop (c : Nat) (p tail : List Nat) :
    (frameBytes c p ++ tail).drop PROTOCOL_HEADER_SIZE = p ++ tail := by
  simp [frameBytes, PROTOCOL_HEADER_SIZE]

theorem strncpy_keeps_tail (dest src : List Nat) (n : Nat) :
    (strncpy dest src n).drop n = dest.drop n := by
  unfold strncpy
  have hle : ((src.take n).takeWhile (fun ch => ch != 0)).length ≤ n := by
    have h1 := (List.takeWhile_sublist (fun ch => ch != 0) (l := src.take n)).length_le
    have h2 := List.length_take_le n src
    omega
  rw [List.drop_append_of_le_length (by simp; omega)]
  have hlen : ((src.take n).takeWhile (fun ch => ch != 0) ++
      List.replicate (n - ((src.take n).takeWhile (fun ch => ch != 0)).length) 0).length = n := by
    simp
    omega
  rw [List.drop_of_length_le (by omega)]
  simp

theorem process_stm32_command_city_last (get_current_weather : List Nat → Option WeatherData)
    (w : EspWorld) (data : List Nat) (length : Nat) :
    (process_stm32_command get_current_weather w data length).current_city.drop 31 =
      w.current_city.drop 31 := by
  unfold process_stm32_command
  by_cases hck : checksum_ok data length = true
  · rw [if_pos hck]
    unfold process_stm32_command_switch send_weather_data_to_stm32 send_system_status_to_stm32
    dsimp only
    by_cases h1 : load data 1 = CMD_GET_WEATHER
    · rw [if_pos h1]
      by_cases hl : length > PROTOCOL_HEADER_SIZE
      · rw [if_pos hl]
        dsimp only
        cases get_current_weather (strncpy w.current_city
          (strncpy (List.replicate 32 0) (List.drop PROTOCOL_HEADER_SIZE data)
            (length - PROTOCOL_HEADER_SIZE)) (32 - 1)) <;>
          exact strncpy_keeps_tail _ _ 31
      · rw [if_neg hl]
        cases get_current_weather w.current_city <;> rfl
    · rw [if_neg h1]
      split_ifs <;> first | rfl | exact strncpy_keeps_tail _ _ 31
  · rw [if_neg hck]

theorem send_weather_data_wire (get_current_weather : List Nat → Option WeatherData)
    (w : EspWorld) :
    (send_weather_data_to_stm32 get_current_weather w).wire =
      w.wire ++
        (match get_current_weather
            (send_weather_data_to_stm32 get_current_weather w).current_city with
          | some weather => uart_send_weather_data weather
          | none => []) := by
  unfold send_weather_data_to_stm32
  cases hg : get_current_weather w.current_city <;> simp [hg]

/-! ## The decoder invariant is inductive -/

theorem byte_state_cases (s : RxState) (b : Nat) :
    (s.frame_decoding = false ∧ b = PROTOCOL_START_BYTE ∧
      (UartRxTask_byte s b).1 =
        { s with
            frame_decoding := true,
            uart_rx_index := 1,
            current_frame := { s.current_frame with start_byte := b },
            uart_rx_buffer := store s.uart_rx_buffer 0 b }) ∨
    (s.frame_decoding = false ∧ (UartRxTask_byte s b).1 = s) ∨
    (s.frame_decoding = true ∧ s.uart_rx_index + 1 < 4 ∧
      (UartRxTask_byte s b).1 =
        { s with
            uart_rx_buffer := store s.uart_rx_buffer s.uart_rx_index b,
            uart_rx_index := s.uart_rx_index + 1 }) ∨
    (s.frame_decoding = true ∧ 4 ≤ s.uart_rx_index + 1 ∧
      s.uart_rx_index + 1 <
        4 + (if s.expected_length = 0 then load (store s.uart_rx_buffer s.uart_rx_index b) 2
          else s.expected_length) ∧
      (UartRxTask_byte s b).1 =
        { s with
            uart_rx_buffer := store s.uart_rx_buffer s.uart_rx_index b,
            uart_rx_index := s.uart_rx_index + 1,
            expected_length :=
              if s.expected_length = 0 then load (store s.uart_rx_buffer s.uart_rx_index b) 2
              else s.expected_length }) ∨
    (s.frame_decoding = true ∧ 4 ≤ s.uart_rx_index + 1 ∧
      4 + (if s.expected_length = 0 then load (store s.uart_rx_buffer s.uart_rx_index b) 2
          else s.expected_length) ≤ s.uart_rx_index + 1 ∧
      (UartRxTask_byte s b).1 =
        { uart_rx_buffer := store s.uart_rx_buffer s.uart_rx_index b,
          uart_rx_index := 0,
          frame_decoding := false,
          expected_length := 0,
          current_frame := zeroFrame }) := by
  unfold UartRxTask_byte
  by_cases hd : s.frame_decoding = true
  · right; right
    simp only [hd, Bool.not_true, Bool.false_and, Bool.false_eq_true, if_false, if_true,
      PROTOCOL_HEADER_SIZE, beq_iff_eq, ge_iff_le, true_and]
    by_cases h4 : 4 ≤ s.uart_rx_index + 1
    · right
      simp only [h4, if_true, true_and]
      by_cases hc : 4 + (if s.expected_length = 0 then
          load (store s.uart_rx_buffer s.uart_rx_index b) 2 else s.expected_length) ≤
          s.uart_rx_index + 1
      · right
        simp only [hc, if_true, true_and]
      · left
        simp only [hc, if_false]
        exact ⟨by omega, trivial⟩
    · left
      simp only [h4, if_false]
      exact ⟨by omega, trivial⟩
  · have hf : s.frame_decoding = false := by simpa using hd
    by_cases hb : b = PROTOCOL_START_BYTE
    · left
      simp [hf, hb]
    · right; left
      simp [hf, hb]

theorem xorFold_perm (p q : List Nat) (h : p.Perm q) : xorFold p = xorFold q := by
  induction h with
  | nil => rfl
  | cons x _ ih => rw [xorFold_cons, xorFold_cons, ih]
  | swap x y l =>
    simp only [xorFold_cons]
    rw [← Nat.xor_assoc, ← Nat.xor_assoc, Nat.xor_comm y x]
  | trans _ _ ih1 ih2 => rw [ih1, ih2]

theorem CalculateChecksum_all (p : List Nat) : CalculateChecksum p p.length = xorFold p := by
  rw [CalculateChecksum_take p p.length (le_refl _), List.take_length]

/-! ## Runs within the declared capacities -/

theorem store_length_of_lt (buf : List Nat) (i v : Nat) (h : i < buf.length) :
    (store buf i v).length = buf.length := by
  simp [store, h]

theorem inBounds_length (s : RxState) (b : Nat) (h : UartRxTask_inBounds s b) :
    (UartRxTask_byte s b).1.uart_rx_buffer.length = s.uart_rx_buffer.length := by
  rcases byte_state_cases s b with
    ⟨hf, hb, he⟩ | ⟨_, he⟩ | ⟨hd, _, he⟩ | ⟨hd, _, _, he⟩ | ⟨hd, _, _, he⟩
  · rw [he]
    have h0 : 0 < s.uart_rx_buffer.length := by
      simpa [UartRxTask_inBounds, hf, hb] using h
    exact store_length_of_lt _ _ _ h0
  · rw [he]
  all_goals
    rw [he]
    have hi : s.uart_rx_index < s.uart_rx_buffer.length := by
      have h2 := h
      simp only [UartRxTask_inBounds, hd, Bool.not_true, Bool.false_and, Bool.false_eq_true,
        if_false, if_true] at h2
      exact h2.1
    exact store_length_of_lt _ _ _ hi

theorem start_inBounds (s : RxState) (hs : IsIdle s) (h : 0 < s.uart_rx_buffer.length) :
    UartRxTask_inBounds s PROTOCOL_START_BYTE := by
  simp [UartRxTask_inBounds, hs.1, h]

theorem accumulates_inBounds (s : RxState) (pre : List Nat) (b : Nat) (h : Accumulating s pre)
    (hmore : pre.length + 1 < 4 ∨ pre.length + 1 < 4 + load (pre ++ [b]) 2)
    (hlt : pre.length < s.uart_rx_buffer.length) : UartRxTask_inBounds s b := by
  have hd := h.decoding
  have hi := h.index
  simp only [UartRxTask_inBounds, hd, Bool.not_true, Bool.false_and, Bool.false_eq_true,
    if_false, if_true, hi, PROTOCOL_HEADER_SIZE]
  refine ⟨hlt, fun h4 hc => ?_⟩
  exfalso
  have hE := expected_cached s pre b h (by omega)
  rw [hE] at hc
  omega

theorem run_partial_inBounds : ∀ (bs pre : List Nat) (s : RxState), Accumulating s pre →
    ((pre ++ bs).length < 4 ∨ (pre ++ bs).length < 4 + load (pre ++ bs) 2) →
    (pre ++ bs).length ≤ s.uart_rx_buffer.length → UartRxTask_runInBounds s bs := by
  intro bs
  induction bs with
  | nil => intro pre s _ _ _; trivial
  | cons b rest ih =>
    intro pre s hacc hlen hcap
    have happ : pre ++ b :: rest = (pre ++ [b]) ++ rest := by simp
    have hmore : pre.length + 1 < 4 ∨ pre.length + 1 < 4 + load (pre ++ [b]) 2 := by
      by_cases h3 : pre.length + 1 < 4
      · exact Or.inl h3
      · right
        have hl : load (pre ++ b :: rest) 2 = load (pre ++ [b]) 2 := by
          rw [happ]
          exact load_append_left _ _ 2 (by simp; omega)
        rw [← hl]
        simp only [List.length_append, List.length_cons] at hlen
        omega
    have hlt : pre.length < s.uart_rx_buffer.length := by
      simp only [List.length_append, List.length_cons] at hcap
      omega
    have hin := accumulates_inBounds s pre b hacc hmore hlt
    obtain ⟨_, hacc2⟩ := byte_accumulates s pre b hacc hmore
    refine ⟨hin, ih (pre ++ [b]) _ hacc2 (by rw [← happ]; exact hlen) ?_⟩
    rw [inBounds_length s b hin, ← happ]
    exact hcap

/-! ## Claims -/

/-- C1: round trip on the display side.  For every command byte `c` and every
payload `p` of at most 128 bytes, the bytes `SendUARTFrame` hands to the link for
the frame with start 0xAA, command `c`, length `p.length`, checksum
`CalculateChecksum` of `p` and payload `p`, fed one at a time to the idle
decoder, yield exactly one accepted frame, with command `c` and payload `p`, and
leave the decoder idle. -/
theorem roundtrip_display (l : TxLink) (s : RxState) (c : Nat) (p pad : List Nat)
    (hp : p.length ≤ PROTOCOL_MAX_DATA_SIZE) (hperm : 0 < l.uartTxSemaphore.count)
    (hs : IsIdle s) :
    (UartRxTask_run s (sentBytes l (mkFrame c p pad))).2.map UARTFrame.message = [(c, p)] ∧
      IsIdle (UartRxTask_run s (sentBytes l (mkFrame c p pad))).1 := by
  rw [sentBytes_mkFrame l c p pad hperm]
  obtain ⟨f, hout, hidle, _, _, hc, _, _, hpay⟩ := run_frame s hs c p.length (xorFold p) p rfl
  rw [if_pos ⟨hp, rfl⟩] at hout
  refine ⟨?_, hidle⟩
  rw [hout]
  simp [UARTFrame.message, hc, hpay]

/-- Instance of C1: the permit is free, the decoder is in its initial state, the
frame is get-weather with payload 0x41 0x42 0x43. -/
theorem roundtrip_display_witness :
    (UartRxTask_run (rxInit 256) (sentBytes txInit (mkFrame 0x01 [0x41, 0x42, 0x43] []))).2.map
        UARTFrame.message = [(0x01, [0x41, 0x42, 0x43])] ∧
      IsIdle (UartRxTask_run (rxInit 256)
        (sentBytes txInit (mkFrame 0x01 [0x41, 0x42, 0x43] []))).1 :=
  roundtrip_display txInit (rxInit 256) 0x01 [0x41, 0x42, 0x43] [] (by decide) (by decide)
    ⟨rfl, rfl, rfl⟩

/-- C2: `CalculateChecksum(data, n)` is the XOR fold, from accumulator 0, of the
first `n` bytes of `data`, for every `n` not exceeding the length of `data`; for
`n = 0` it returns 0. -/
theorem CalculateChecksum_eq_xorFold (data : List Nat) (n : Nat) (h : n ≤ data.length) :
    CalculateChecksum data n = xorFold (data.take n) ∧ CalculateChecksum data 0 = 0 :=
  ⟨CalculateChecksum_take data n h, rfl⟩

/-- Instance of C2 on four bytes, of which three are folded. -/
theorem CalculateChecksum_eq_xorFold_witness :
    CalculateChecksum [0x41, 0x42, 0x43, 0x44] 3 = xorFold ([0x41, 0x42, 0x43, 0x44].take 3) ∧
      CalculateChecksum [0x41, 0x42, 0x43, 0x44] 0 = 0 :=
  CalculateChecksum_eq_xorFold [0x41, 0x42, 0x43, 0x44] 3 (by decide)

/-- C3: for a frame whose data field has its 128 cells, `ValidateFrame` returns
true exactly when the start byte is 0xAA, `data_length` is at most 128 and the
checksum byte is the XOR of the first `data_length` payload bytes; a frame that
differs only in the command byte and in the payload cells from `data_length` on
gets the same verdict. -/
theorem ValidateFrame_iff (f : UARTFrame) (hcap : f.data.length = PROTOCOL_MAX_DATA_SIZE) :
    (ValidateFrame f = true ↔
      f.start_byte = 0xAA ∧ f.data_length ≤ 128 ∧
        f.checksum = xorFold (f.data.take f.data_length)) ∧
    ∀ (command : Nat) (data : List Nat), data.length = PROTOCOL_MAX_DATA_SIZE →
      data.take f.data_length = f.data.take f.data_length →
      ValidateFrame { f with command := command, data := data } = ValidateFrame f := by
  have key : ∀ g : UARTFrame, g.data.length = PROTOCOL_MAX_DATA_SIZE →
      (ValidateFrame g = true ↔
        g.start_byte = PROTOCOL_START_BYTE ∧ g.data_length ≤ PROTOCOL_MAX_DATA_SIZE ∧
          g.checksum = xorFold (g.data.take g.data_length)) :=
    fun g hg => ValidateFrame_eq_true_iff g (fun hle => by omega)
  refine ⟨key f hcap, ?_⟩
  intro command data hdata htake
  have h1 := key f hcap
  have h2 := key { f with command := command, data := data } hdata
  simp only [htake] at h2
  rw [Bool.eq_iff_iff, h1, h2]

/-- Instance of C3: a valid get-weather frame with payload 1 2 4, against the
frame with another command and another last cell of the data field. -/
theorem ValidateFrame_iff_witness :
    (mkFrame 0x01 [1, 2, 4] (List.replicate 125 0)).data.length = PROTOCOL_MAX_DATA_SIZE ∧
      ValidateFrame { mkFrame 0x01 [1, 2, 4] (List.replicate 125 0) with
          command := 0x06, data := [1, 2, 4] ++ List.replicate 124 0 ++ [5] } =
        ValidateFrame (mkFrame 0x01 [1, 2, 4] (List.replicate 125 0)) :=
  ⟨by simp [mkFrame, PROTOCOL_MAX_DATA_SIZE],
    (ValidateFrame_iff (mkFrame 0x01 [1, 2, 4] (List.replicate 125 0))
      (by simp [mkFrame, PROTOCOL_MAX_DATA_SIZE])).2
      0x06 ([1, 2, 4] ++ List.replicate 124 0 ++ [5]) (by simp [PROTOCOL_MAX_DATA_SIZE])
      (by simp [mkFrame])⟩

/-- C4: for every frame that `ValidateFrame` accepts, flipping one bit of one of
its first `data_length` payload bytes, or one bit of its checksum byte, gives a
frame that `ValidateFrame` rejects. -/
theorem ValidateFrame_rejects_bit_flip (f : UARTFrame)
    (hcap : f.data.length = PROTOCOL_MAX_DATA_SIZE) (hv : ValidateFrame f = true)
    (k : Nat) (_hk : k < 8) :
    (∀ i, i < f.data_length →
      ValidateFrame { f with data := store f.data i (flipBit (load f.data i) k) } = false) ∧
    ValidateFrame { f with checksum := flipBit f.checksum k } = false := by
  have hvalid := (ValidateFrame_eq_true_iff f (fun hle => by omega)).mp hv
  obtain ⟨h1, h2, h3⟩ := hvalid
  constructor
  · intro i hi
    have hil : i < f.data.length := by omega
    have hst : store f.data i (flipBit (load f.data i) k) =
        f.data.set i (flipBit (load f.data i) k) := by simp [store, hil]
    rw [Bool.eq_false_iff]
    intro hv2
    have h4 := (ValidateFrame_eq_true_iff
      { f with data := store f.data i (flipBit (load f.data i) k) }
      (fun _ => by simp [hst]; omega)).mp hv2
    obtain ⟨_, _, h5⟩ := h4
    simp only [hst] at h5
    rw [xorFold_take_set f.data i f.data_length _ hi (by omega), ← h3, Nat.xor_assoc] at h5
    have h6 : f.checksum ^^^ 0 = f.checksum ^^^ (load f.data i ^^^ flipBit (load f.data i) k) := by
      simpa using h5
    have h7 := Nat.xor_right_injective h6
    have h8 : load f.data i = flipBit (load f.data i) k := Nat.xor_eq_zero.mp h7.symm
    exact flipBit_ne _ _ h8.symm
  · rw [Bool.eq_false_iff]
    intro hv2
    have h4 := (ValidateFrame_eq_true_iff { f with checksum := flipBit f.checksum k }
      (fun hle => by simp at hle ⊢; omega)).mp hv2
    obtain ⟨_, _, h5⟩ := h4
    simp only at h5
    rw [← h3] at h5
    exact flipBit_ne _ _ h5

/-- Instance of C4: bit 3 flipped in the second payload byte, and in the
checksum, of a valid frame with payload 1 2 4. -/
theorem ValidateFrame_rejects_bit_flip_witness :
    ValidateFrame (mkFrame 0x01 [1, 2, 4] (List.replicate 125 0)) = true ∧
      ValidateFrame { mkFrame 0x01 [1, 2, 4] (List.replicate 125 0) with
          data := store (mkFrame 0x01 [1, 2, 4] (List.replicate 125 0)).data 1
            (flipBit (load (mkFrame 0x01 [1, 2, 4] (List.replicate 125 0)).data 1) 3) } = false ∧
      ValidateFrame { mkFrame 0x01 [1, 2, 4] (List.replicate 125 0) with
          checksum := flipBit (mkFrame 0x01 [1, 2, 4] (List.replicate 125 0)).checksum 3 } =
        false :=
  have hv : ValidateFrame (mkFrame 0x01 [1, 2, 4] (List.replicate 125 0)) = true := by
    rw [ValidateFrame_eq_true_iff _ (fun _ => by simp [mkFrame])]
    simp [mkFrame, PROTOCOL_MAX_DATA_SIZE, CalculateChecksum_take]
  have h := ValidateFrame_rejects_bit_flip (mkFrame 0x01 [1, 2, 4] (List.replicate 125 0))
    (by simp [mkFrame, PROTOCOL_MAX_DATA_SIZE]) hv 3 (by decide)
  ⟨hv, h.1 1 (by simp [mkFrame]), h.2⟩

/-- C5: a complete frame (0xAA, command, length `L` of at most 128, checksum `k`,
`L` payload bytes) whose checksum byte differs from the XOR of its payload, fed
to the idle decoder, yields no accepted frame (`ProcessReceivedFrame` is not
called, no event is put) and leaves the decoder idle, with nothing collected and
no expected length. -/
theorem bad_checksum_discarded (s : RxState) (hs : IsIdle s) (c L k : Nat) (p : List Nat)
    (_hL : L ≤ PROTOCOL_MAX_DATA_SIZE) (hp : p.length = L) (hk : k ≠ xorFold p) :
    (UartRxTask_run s (0xAA :: c :: L :: k :: p)).2 = [] ∧
      (UartRxTask_run s (0xAA :: c :: L :: k :: p)).1.frame_decoding = false ∧
      (UartRxTask_run s (0xAA :: c :: L :: k :: p)).1.uart_rx_index = 0 ∧
      (UartRxTask_run s (0xAA :: c :: L :: k :: p)).1.expected_length = 0 := by
  obtain ⟨f, hout, hidle, _⟩ := run_frame s hs c L k p hp
  rw [if_neg (fun h => hk h.2)] at hout
  exact ⟨hout, hidle⟩

/-- Instance of C5 given with the claim: 0xAA 0x01 0x03 0x05 0x41 0x42 0x43, where
the XOR of the payload is 0x40 and not 0x05. -/
theorem bad_checksum_discarded_witness :
    (0x05 ≠ xorFold [0x41, 0x42, 0x43]) ∧
      (UartRxTask_run (rxInit 256) [0xAA, 0x01, 0x03, 0x05, 0x41, 0x42, 0x43]).2 = [] ∧
      (UartRxTask_run (rxInit 256) [0xAA, 0x01, 0x03, 0x05, 0x41, 0x42, 0x43]).1.frame_decoding
        = false ∧
      (UartRxTask_run (rxInit 256) [0xAA, 0x01, 0x03, 0x05, 0x41, 0x42, 0x43]).1.uart_rx_index
        = 0 ∧
      (UartRxTask_run (rxInit 256) [0xAA, 0x01, 0x03, 0x05, 0x41, 0x42, 0x43]).1.expected_length
        = 0 :=
  ⟨by decide,
    bad_checksum_discarded (rxInit 256) ⟨rfl, rfl, rfl⟩ 0x01 0x03 0x05 [0x41, 0x42, 0x43]
      (by decide) rfl (by decide)⟩

/-- C6: for every command byte `c`, the four bytes 0xAA, `c`, 0x00, 0x00 fed to
the idle decoder yield exactly one accepted frame, with command `c` and
`data_length` 0; it is accepted on the fourth byte (the first three bytes yield
none and leave the decoder accumulating) and the decoder is idle afterwards. -/
theorem empty_frame_accepted (s : RxState) (hs : IsIdle s) (c : Nat) :
    (UartRxTask_run s [0xAA, c, 0x00]).2 = [] ∧
      (UartRxTask_run s [0xAA, c, 0x00]).1.frame_decoding = true ∧
      (UartRxTask_run s [0xAA, c, 0x00, 0x00]).2.map (fun f => (f.command, f.data_length))
        = [(c, 0)] ∧
      IsIdle (UartRxTask_run s [0xAA, c, 0x00, 0x00]).1 := by
  obtain ⟨f, hout, hidle, _, _, hc, hl, _, _⟩ := run_frame s hs c 0 0 [] rfl
  rw [if_pos ⟨by simp, rfl⟩] at hout
  have happ := run_append s [0xAA, c, 0x00] [0x00]
  have hfull : UartRxTask_run s [0xAA, c, 0x00, 0x00] =
      UartRxTask_run s (PROTOCOL_START_BYTE :: c :: 0 :: 0 :: []) := rfl
  obtain ⟨hnone, hacc⟩ := byte_start s hs
  obtain ⟨hnone2, hacc2⟩ := byte_accumulates _ _ c hacc (Or.inl (by simp))
  obtain ⟨hnone3, hacc3⟩ := byte_accumulates _ _ 0 hacc2 (Or.inl (by simp))
  have h3 : UartRxTask_run s [0xAA, c, 0x00] =
      ((UartRxTask_byte (UartRxTask_byte (UartRxTask_byte s PROTOCOL_START_BYTE).1 c).1 0).1,
        []) := by
    show UartRxTask_run s [PROTOCOL_START_BYTE, c, 0] = _
    simp [run_cons, UartRxTask_run, hnone, hnone2, hnone3]
  refine ⟨by rw [h3], by rw [h3]; exact hacc3.decoding, ?_, by rw [hfull]; exact hidle⟩
  rw [hfull, hout]
  simp [hc, hl]

/-- Instance of C6 given with the claim: 0xAA 0x06 0x00 0x00. -/
theorem empty_frame_accepted_witness :
    (UartRxTask_run (rxInit 256) [0xAA, 0x06, 0x00]).2 = [] ∧
      (UartRxTask_run (rxInit 256) [0xAA, 0x06, 0x00]).1.frame_decoding = true ∧
      (UartRxTask_run (rxInit 256) [0xAA, 0x06, 0x00, 0x00]).2.map
        (fun f => (f.command, f.data_length)) = [(0x06, 0)] ∧
      IsIdle (UartRxTask_run (rxInit 256) [0xAA, 0x06, 0x00, 0x00]).1 :=
  empty_frame_accepted (rxInit 256) ⟨rfl, rfl, rfl⟩ 0x06

/-- C8: idle transition.  For a byte `b` received while no frame is in progress:
if `b` is not 0xAA the whole decoder state is unchanged and nothing is
dispatched; if `b` is 0xAA the decoder becomes active with exactly one byte
collected, 0xAA stored at accumulator offset 0, and nothing dispatched. -/
theorem idle_transition (s : RxState) (b : Nat) (hs : s.frame_decoding = false) :
    (b ≠ 0xAA → UartRxTask_byte s b = (s, none)) ∧
    (b = 0xAA →
      (UartRxTask_byte s b).2 = none ∧ (UartRxTask_byte s b).1.frame_decoding = true ∧
        (UartRxTask_byte s b).1.uart_rx_index = 1 ∧
        load (UartRxTask_byte s b).1.uart_rx_buffer 0 = 0xAA) := by
  constructor
  · intro hb
    have hb2 : ¬ b = PROTOCOL_START_BYTE := hb
    simp [UartRxTask_byte, hs, hb2]
  · intro hb
    have hb2 : b = PROTOCOL_START_BYTE := hb
    subst hb2
    simp [UartRxTask_byte, hs, load_store_zero]
    rfl

/-- Instance of C8: the bytes 0x55 and 0xAA received in the initial state. -/
theorem idle_transition_witness :
    UartRxTask_byte (rxInit 256) 0x55 = (rxInit 256, none) ∧
      ((UartRxTask_byte (rxInit 256) 0xAA).2 = none ∧
        (UartRxTask_byte (rxInit 256) 0xAA).1.frame_decoding = true ∧
        (UartRxTask_byte (rxInit 256) 0xAA).1.uart_rx_index = 1 ∧
        load (UartRxTask_byte (rxInit 256) 0xAA).1.uart_rx_buffer 0 = 0xAA) :=
  ⟨(idle_transition (rxInit 256) 0x55 rfl).1 (by decide),
    (idle_transition (rxInit 256) 0xAA rfl).2 rfl⟩

/-- C9, amended: for valid frames F (non-empty payload whose last byte is not
0xAA) and G, and every position inside the payload of F, the idle decoder fed
the bytes of F with one extra 0xAA inserted at that position, then the bytes of
G, accepts G unchanged (same command and payload) and nothing else, and is idle
afterwards. -/
theorem spurious_start_resync (s : RxState) (hs : IsIdle s) (cF cG : Nat)
    (pF pG : List Nat) (i : Nat) (hF : pF.length ≤ PROTOCOL_MAX_DATA_SIZE)
    (hG : pG.length ≤ PROTOCOL_MAX_DATA_SIZE) (hi : i < pF.length)
    (hlast : pF.getLast? ≠ some PROTOCOL_START_BYTE) :
    (UartRxTask_run s (withSpuriousStart cF pF i ++ frameBytes cG pG)).2.map UARTFrame.message
        = [(cG, pG)] ∧
      IsIdle (UartRxTask_run s (withSpuriousStart cF pF i ++ frameBytes cG pG)).1 := by
  rcases List.eq_nil_or_concat pF with hnil | ⟨init, z, hcat⟩
  · subst hnil
    simp at hi
  rw [List.concat_eq_append] at hcat
  subst hcat
  have hz : z ≠ PROTOCOL_START_BYTE := by
    intro h
    apply hlast
    rw [List.getLast?_concat, h]
  have hil : i ≤ init.length := by
    simp only [List.length_append, List.length_singleton] at hi
    omega
  have hsplit : withSpuriousStart cF (init ++ [z]) i ++ frameBytes cG pG =
      (PROTOCOL_START_BYTE :: cF :: (init.length + 1) :: (xorFold init ^^^ z) ::
        (init.take i ++ PROTOCOL_START_BYTE :: init.drop i)) ++ (z :: frameBytes cG pG) := by
    unfold withSpuriousStart
    rw [CalculateChecksum_take _ _ (le_refl _), List.take_length, xorFold_append,
      List.take_append_of_le_length hil, List.drop_append_of_le_length hil]
    simp [xorFold_cons, xorFold_nil]
  have hqlen : (init.take i ++ PROTOCOL_START_BYTE :: init.drop i).length = init.length + 1 := by
    simp only [List.length_append, List.length_take, List.length_cons, List.length_drop]
    omega
  have hqx : xorFold (init.take i ++ PROTOCOL_START_BYTE :: init.drop i) =
      xorFold init ^^^ PROTOCOL_START_BYTE := by
    have h1 : xorFold init = xorFold (init.take i) ^^^ xorFold (init.drop i) := by
      rw [← xorFold_append, List.take_append_drop]
    rw [xorFold_append, xorFold_cons, h1]
    ac_rfl
  obtain ⟨f, hout, hidle, _⟩ := run_frame s hs cF (init.length + 1) (xorFold init ^^^ z)
    (init.take i ++ PROTOCOL_START_BYTE :: init.drop i) hqlen
  have hrej : ¬ (init.length + 1 ≤ PROTOCOL_MAX_DATA_SIZE ∧
      xorFold init ^^^ z = xorFold (init.take i ++ PROTOCOL_START_BYTE :: init.drop i)) := by
    rintro ⟨_, h⟩
    rw [hqx] at h
    exact hz (Nat.xor_right_injective h)
  rw [if_neg hrej] at hout
  obtain ⟨hGout, hGidle⟩ := frameBytes_run _ hidle cG pG hG
  rw [hsplit, run_append, hout, run_cons, byte_idle_other _ z hidle.1 hz]
  exact ⟨by simpa using hGout, hGidle⟩

/-- Instance of C9 as amended: F is an ack frame with payload 1 2 3, the extra
0xAA is inserted before its second payload byte, G is a system-status frame. -/
theorem spurious_start_resync_witness :
    (UartRxTask_run (rxInit 256)
        (withSpuriousStart 0x07 [1, 2, 3] 1 ++ frameBytes 0x06 [])).2.map UARTFrame.message
        = [(0x06, [])] ∧
      IsIdle (UartRxTask_run (rxInit 256)
        (withSpuriousStart 0x07 [1, 2, 3] 1 ++ frameBytes 0x06 [])).1 :=
  spurious_start_resync (rxInit 256) ⟨rfl, rfl, rfl⟩ 0x07 0x06 [1, 2, 3] [] 1 (by decide)
    (by decide) (by decide) (by decide)

set_option maxRecDepth 100000 in
/-- C9 as stated fails: F is the valid frame with command 0x07 and payload 0xAA, an
extra 0xAA is inserted at payload position 0, G is the valid frame with command
0x06 and empty payload.  The decoder accepts F, takes the last byte of F for the
start of a frame, and swallows G: G is not accepted, and the decoder is left
accumulating. -/
theorem spurious_start_counterexample :
    (UartRxTask_run (rxInit 256) (withSpuriousStart 0x07 [0xAA] 0 ++ frameBytes 0x06 [])).2.map
        UARTFrame.message = [(0x07, [0xAA])] ∧
      (0x06, []) ∉ (UartRxTask_run (rxInit 256)
        (withSpuriousStart 0x07 [0xAA] 0 ++ frameBytes 0x06 [])).2.map UARTFrame.message ∧
      (UartRxTask_run (rxInit 256)
        (withSpuriousStart 0x07 [0xAA] 0 ++ frameBytes 0x06 [])).1.frame_decoding = true := by
  decide

/-- C10 fails on the code: for the three-byte image 1 2 4, `uart_send_weather_data`
passes the six bytes 0xAA 0x01 0x03 0x06 0x02 0x04 to `uart_write_bytes`: the
first payload byte is overwritten by the checksum, which covers the other two
bytes only.  The seven bytes the claim describes are 0xAA 0x01 0x03 0x07 0x01
0x02 0x04. -/
theorem uart_send_weather_data_drops_first_byte :
    uart_send_weather_data [1, 2, 4] = [0xAA, 0x01, 0x03, 0x06, 0x02, 0x04] ∧
      uart_send_weather_data [1, 2, 4] ≠ 0xAA :: 0x01 :: 3 :: xorFold [1, 2, 4] :: [1, 2, 4] ∧
      (uart_send_weather_data [1, 2, 4]).length = 3 + 3 := by
  rw [uart_send_weather_data_eq 1 [2, 4] (by decide)]
  decide

/-! ## Claims on the dispatchers and on the link -/

/-- C11 fails on the code, by the defect of C10: for the three-byte image 1 2 4 the
six bytes `uart_send_weather_data` emits announce three payload bytes and carry
two, so the decoder of the display unit, fed these bytes from its initial
state, accepts no frame and is left accumulating, with six bytes collected,
instead of idle with one accepted get-weather frame. -/
theorem weather_roundtrip_fails :
    (UartRxTask_run (rxInit 256) (uart_send_weather_data [1, 2, 4])).2 = [] ∧
      (UartRxTask_run (rxInit 256) (uart_send_weather_data [1, 2, 4])).1.frame_decoding = true ∧
      (UartRxTask_run (rxInit 256) (uart_send_weather_data [1, 2, 4])).1.uart_rx_index = 3 + 3 :=
  run_weather_frame (rxInit 256) ⟨rfl, rfl, rfl⟩ 1 [2, 4] (by decide)

/-- C12 fails on the code: the receive loop of the connectivity unit has no test of
the length field.  For the frame with command 0x01, length field 200, 200 zero
payload bytes and the matching checksum 0, the display-side decoder hands
nothing to its dispatcher, while the connectivity-side loop passes the checksum
test and hands the frame to its command switch. -/
theorem decoders_disagree :
    (UartRxTask_run (rxInit 256) (0xAA :: 0x01 :: 200 :: 0 :: List.replicate 200 0)).2.map
        UARTFrame.message = [] ∧
      espAccepted espRxInit (0xAA :: 0x01 :: 200 :: 0 :: List.replicate 200 0) =
        [(0x01, List.replicate 200 0)] := by
  decide!

/-- C13: display-side dispatch of a system-status frame, when the transmit permit is
obtained, writes exactly the 12 bytes 0xAA, 0x06, 0x08, cs, b0 .. b7, where b0,
b1, b2 are the flags `wifi_connected`, `weather_data_valid`, `time_synced`, b3 is
`battery_level`, b4 .. b7 are the bytes of `uptime_seconds` from the least
significant one, and cs is the XOR of b0 .. b7, for every `system_status`. -/
theorem system_status_reply (parse : List Nat → Nat → Option WeatherData) (w : DisplayWorld)
    (f : UARTFrame) (hcmd : f.command = 0x06) (hperm : 0 < w.link.uartTxSemaphore.count) :
    (ProcessReceivedFrame parse w f).link.wire =
        w.link.wire ++
          [0xAA, 0x06, 0x08,
            boolByte w.system_status.wifi_connected ^^^
              boolByte w.system_status.weather_data_valid ^^^
              boolByte w.system_status.time_synced ^^^ w.system_status.battery_level ^^^
              w.system_status.uptime_seconds % 256 ^^^
              w.system_status.uptime_seconds / 256 % 256 ^^^
              w.system_status.uptime_seconds / 65536 % 256 ^^^
              w.system_status.uptime_seconds / 16777216 % 256,
            boolByte w.system_status.wifi_connected,
            boolByte w.system_status.weather_data_valid,
            boolByte w.system_status.time_synced,
            w.system_status.battery_level,
            w.system_status.uptime_seconds % 256,
            w.system_status.uptime_seconds / 256 % 256,
            w.system_status.uptime_seconds / 65536 % 256,
            w.system_status.uptime_seconds / 16777216 % 256] ∧
      w.system_status.uptime_seconds % 256 +
          256 * (w.system_status.uptime_seconds / 256 % 256) +
          65536 * (w.system_status.uptime_seconds / 65536 % 256) +
          16777216 * (w.system_status.uptime_seconds / 16777216 % 256) =
        w.system_status.uptime_seconds % 4294967296 := by
  constructor
  · have hc : ProcessReceivedFrame parse w f =
        { w with link := SendUARTFrame w.link (status_frame w.system_status) } := by
      unfold ProcessReceivedFrame
      simp [hcmd, CMD_GET_WEATHER, CMD_GET_TIME, CMD_SYSTEM_STATUS]
    rw [hc]
    simp only []
    rw [status_frame_wire _ _ hperm]
    simp [status_data, bytes_u32, xorFold, Nat.xor_assoc]
  · omega

/-- Instance of C13: the initial world (battery 100, all flags clear, uptime 0). -/
theorem system_status_reply_witness :
    (ProcessReceivedFrame (fun _ _ => none) displayInit (mkFrame 0x06 [] [])).link.wire =
      [0xAA, 0x06, 0x08, 100, 0, 0, 0, 100, 0, 0, 0, 0] :=
  (system_status_reply (fun _ _ => none) displayInit (mkFrame 0x06 [] []) rfl (by decide)).1

/-- C14: connectivity-side dispatch of a set-city frame with correct checksum and a
payload `p` of 1 to 31 non-NUL bytes, `current_city` being 32 cells with a NUL
in the last one (as at start, and as no statement ever changes), leaves
`current_city` equal to `p` followed by NULs up to 32 bytes and sets
`FORCE_UPDATE_BIT` in the weather event group; with an empty payload it changes
nothing. -/
theorem set_city_dispatch (get_current_weather : List Nat → Option WeatherData)
    (w : EspWorld) (p tail : List Nat) (hp1 : 1 ≤ p.length) (hp31 : p.length ≤ 31)
    (hnz : ∀ ch ∈ p, ch ≠ 0) (hcity : w.current_city.drop 31 = [0]) :
    (process_stm32_command get_current_weather w (frameBytes 0x04 p ++ tail)
        (4 + p.length)).current_city = p ++ List.replicate (32 - p.length) 0 ∧
      (process_stm32_command get_current_weather w (frameBytes 0x04 p ++ tail)
        (4 + p.length)).weather_event_group = w.weather_event_group ||| FORCE_UPDATE_BIT ∧
      Nat.testBit (process_stm32_command get_current_weather w (frameBytes 0x04 p ++ tail)
        (4 + p.length)).weather_event_group 3 = true ∧
      process_stm32_command get_current_weather w (frameBytes 0x04 [] ++ tail) 4 = w := by
  have hsw : process_stm32_command get_current_weather w (frameBytes 0x04 p ++ tail)
      (4 + p.length) =
      { w with
          current_city := p ++ List.replicate (32 - p.length) 0,
          weather_event_group := w.weather_event_group ||| FORCE_UPDATE_BIT } := by
    unfold process_stm32_command
    rw [frameBytes_checksum_ok, if_pos rfl]
    unfold process_stm32_command_switch
    have hgt : 4 + p.length > PROTOCOL_HEADER_SIZE := by simp [PROTOCOL_HEADER_SIZE]; omega
    have hsub : 4 + p.length - PROTOCOL_HEADER_SIZE = p.length := by simp [PROTOCOL_HEADER_SIZE]
    simp only [frameBytes_command, frameBytes_drop, hgt, hsub, if_true]
    rw [strncpy_payload _ p tail hnz]
    have hdrop : List.drop p.length (List.replicate 32 0) = List.replicate (32 - p.length) 0 :=
      List.drop_replicate _ _ _
    rw [hdrop, strncpy_city _ p hnz hp31, hcity]
    have hpad : List.replicate (31 - p.length) 0 ++ [0] = List.replicate (32 - p.length) 0 := by
      have h32 : 32 - p.length = (31 - p.length) + 1 := by omega
      rw [h32, List.replicate_succ']
    simp [CMD_GET_WEATHER, CMD_GET_TIME, CMD_SET_CITY, List.append_assoc, hpad]
  refine ⟨by rw [hsw], by rw [hsw], ?_, ?_⟩
  · rw [hsw]
    simp [Nat.testBit_or, FORCE_UPDATE_BIT]
    right
    decide
  · unfold process_stm32_command
    have hck := frameBytes_checksum_ok 0x04 [] tail
    simp only [List.length_nil, Nat.add_zero] at hck
    rw [hck, if_pos rfl]
    unfold process_stm32_command_switch
    simp [frameBytes_command, CMD_GET_WEATHER, CMD_GET_TIME, CMD_SET_CITY, PROTOCOL_HEADER_SIZE]

/-- Instance of C14: the city "Xi" (0x58 0x69) set from the start value
"Beijing,CN". -/
theorem set_city_dispatch_witness :
    (process_stm32_command (fun _ => none) espInit
        (frameBytes 0x04 [0x58, 0x69] ++ List.replicate 250 0) (4 + 2)).current_city =
        [0x58, 0x69] ++ List.replicate (32 - 2) 0 ∧
      Nat.testBit (process_stm32_command (fun _ => none) espInit
        (frameBytes 0x04 [0x58, 0x69] ++ List.replicate 250 0) (4 + 2)).weather_event_group 3
        = true ∧
      process_stm32_command (fun _ => none) espInit
        (frameBytes 0x04 [] ++ List.replicate 250 0) 4 = espInit :=
  have h := set_city_dispatch (fun _ => none) espInit [0x58, 0x69] (List.replicate 250 0)
    (by decide) (by decide) (by decide) (by decide)
  ⟨h.1, h.2.2.1, h.2.2.2⟩

/-- C15, amended: connectivity-side dispatch of a valid get-weather frame, whose
payload of at most 32 bytes fits the temporary `city_id`, sends no ack frame.
It fetches the weather for the current city (after the city was replaced by a
non-empty payload) and writes to the link the bytes `uart_send_weather_data`
emits for the fetched value, which fits the 128-byte buffer of the sender; when
the fetch fails it writes nothing. -/
theorem get_weather_dispatch (get_current_weather : List Nat → Option WeatherData)
    (w : EspWorld) (p tail : List Nat) (_hp : p.length ≤ 32)
    (_hcity : w.current_city.length = 32)
    (_hfit : ∀ (city : List Nat) (weather : WeatherData),
      get_current_weather city = some weather → 3 + weather.length ≤ 128) :
    (process_stm32_command get_current_weather w (frameBytes 0x01 p ++ tail)
        (4 + p.length)).wire =
      w.wire ++
        (match get_current_weather
            (process_stm32_command get_current_weather w (frameBytes 0x01 p ++ tail)
              (4 + p.length)).current_city with
          | some weather => uart_send_weather_data weather
          | none => []) := by
  have hsw : ∃ w1 : EspWorld, w1.wire = w.wire ∧
      process_stm32_command get_current_weather w (frameBytes 0x01 p ++ tail) (4 + p.length) =
        send_weather_data_to_stm32 get_current_weather w1 := by
    unfold process_stm32_command
    rw [frameBytes_checksum_ok, if_pos rfl]
    unfold process_stm32_command_switch
    simp only [frameBytes_command, CMD_GET_WEATHER, if_true]
    refine ⟨_, ?_, rfl⟩
    split_ifs <;> rfl
  obtain ⟨w1, hw1, hcmd⟩ := hsw
  rw [hcmd, send_weather_data_wire, hw1]

/-- Instance of C15 as amended: the get-weather frame with payload "Xi" received
in the start world, the fetch yielding the image 1 2 4. -/
theorem get_weather_dispatch_witness :
    (process_stm32_command (fun _ => some [1, 2, 4]) espInit
        (frameBytes 0x01 [0x58, 0x69] ++ List.replicate 250 0) (4 + 2)).wire =
      [] ++ uart_send_weather_data [1, 2, 4] :=
  get_weather_dispatch (fun _ => some [1, 2, 4]) espInit [0x58, 0x69] (List.replicate 250 0)
    (by decide) (by decide) (fun _ _ h => by cases h; decide)

set_option maxRecDepth 100000 in
/-- C15 as stated fails: for the get-weather frame 0xAA 0x01 0x00 0x00, when the
fetch yields the image 1 2 4 the code writes 0xAA 0x01 0x03 0x06 0x02 0x04 to the
link, and when the fetch fails it writes nothing; in neither case the ack frame
0xAA 0x07 0x00 0x00. -/
theorem get_weather_dispatch_counterexample :
    (process_stm32_command (fun _ => some [1, 2, 4]) espInit
        (frameBytes 0x01 [] ++ List.replicate 252 0) 4).wire =
        [0xAA, 0x01, 0x03, 0x06, 0x02, 0x04] ∧
      (process_stm32_command (fun _ => some [1, 2, 4]) espInit
        (frameBytes 0x01 [] ++ List.replicate 252 0) 4).wire ≠ [0xAA, 0x07, 0x00, 0x00] ∧
      (process_stm32_command (fun _ => none) espInit
        (frameBytes 0x01 [] ++ List.replicate 252 0) 4).wire = [] := by
  decide

/-- C16, amended: display-side dispatch of a get-weather frame whose payload parses
into a `WeatherData` puts that value on the weather channel with timeout 0 (so
it is enqueued when the channel is not full), sets `weather_data_valid`, and
replies with an ack frame, the bytes 0xAA 0x07 0x00 0x00, when the transmit
permit is obtained; when the payload does not parse, it enqueues nothing, sends
nothing and leaves `system_status` unchanged. -/
theorem weather_frame_dispatch (parse : List Nat → Nat → Option WeatherData)
    (w : DisplayWorld) (f : UARTFrame) (hcmd : f.command = 0x01) :
    (∀ weather_data, parse f.data f.data_length = some weather_data →
      (ProcessReceivedFrame parse w f).weatherQueue =
          osMessageQueuePut w.weatherQueue weather_data 0 ∧
        (w.weatherQueue.items.length < w.weatherQueue.capacity →
          (ProcessReceivedFrame parse w f).weatherQueue.items =
            w.weatherQueue.items ++ [weather_data]) ∧
        (ProcessReceivedFrame parse w f).system_status =
          { w.system_status with weather_data_valid := true } ∧
        (0 < w.link.uartTxSemaphore.count →
          (ProcessReceivedFrame parse w f).link.wire =
            w.link.wire ++ [0xAA, 0x07, 0x00, 0x00])) ∧
    (parse f.data f.data_length = none → ProcessReceivedFrame parse w f = w) := by
  constructor
  · intro weather_data hparse
    have hc : ProcessReceivedFrame parse w f =
        { w with
            weatherQueue := osMessageQueuePut w.weatherQueue weather_data 0,
            system_status := { w.system_status with weather_data_valid := true },
            link := SendUARTFrame w.link ack_frame } := by
      unfold ProcessReceivedFrame
      simp [hcmd, CMD_GET_WEATHER, hparse]
    rw [hc]
    refine ⟨rfl, ?_, rfl, ?_⟩
    · intro hroom
      simp [osMessageQueuePut, hroom]
    · intro hperm
      exact ack_frame_wire w.link hperm
  · intro hparse
    unfold ProcessReceivedFrame
    simp [hcmd, CMD_GET_WEATHER, hparse]

/-- Instance of C16 as amended: a frame that parses, dispatched in the initial
world, where the weather channel is empty and the permit is free; and a frame
that does not parse. -/
theorem weather_frame_dispatch_witness :
    ((ProcessReceivedFrame (fun _ _ => some [9]) displayInit
          (mkFrame 0x01 [1, 2, 4] [])).weatherQueue.items = [] ++ [[9]] ∧
        (ProcessReceivedFrame (fun _ _ => some [9]) displayInit
          (mkFrame 0x01 [1, 2, 4] [])).link.wire = [] ++ [0xAA, 0x07, 0x00, 0x00]) ∧
      ProcessReceivedFrame (fun _ _ => none) displayInit (mkFrame 0x01 [1, 2, 4] []) =
        displayInit :=
  ⟨⟨((weather_frame_dispatch (fun _ _ => some [9]) displayInit (mkFrame 0x01 [1, 2, 4] [])
        rfl).1 [9] rfl).2.1 (by decide),
      ((weather_frame_dispatch (fun _ _ => some [9]) displayInit (mkFrame 0x01 [1, 2, 4] [])
        rfl).1 [9] rfl).2.2.2 (by decide)⟩,
    (weather_frame_dispatch (fun _ _ => none) displayInit (mkFrame 0x01 [1, 2, 4] []) rfl).2 rfl⟩

set_option maxRecDepth 100000 in
/-- C16 as stated fails.  A get-weather frame whose payload parses, dispatched in
the initial world, makes the code write the ack frame 0xAA 0x07 0x00 0x00 to the
link; and when the weather channel already holds its five values, the parsed
value is not enqueued. -/
theorem weather_frame_dispatch_counterexample :
    (ProcessReceivedFrame (fun _ _ => some [9]) displayInit
        (mkFrame 0x01 [1, 2, 4] [])).link.wire = [0xAA, 0x07, 0x00, 0x00] ∧
      (ProcessReceivedFrame (fun _ _ => some [9]) displayInit
        (mkFrame 0x01 [1, 2, 4] [])).link.wire ≠ displayInit.link.wire ∧
      (ProcessReceivedFrame (fun _ _ => some [9])
        { displayInit with
            weatherQueue := { capacity := 5, items := [[1], [2], [3], [4], [5]], waited := 0 } }
        (mkFrame 0x01 [1, 2, 4] [])).weatherQueue.items = [[1], [2], [3], [4], [5]] := by
  decide

/-- C17: for every frame whose command is neither get-weather (0x01) nor
system-status (0x06), `ProcessReceivedFrame` changes nothing: no byte is written
to the link, and `system_status`, the weather channel and the time channel are
as before.  When such a frame, valid, arrives at the idle decoder, the receive
task changes the world by the event put only, its decoder is idle again, and a
valid frame that follows is accepted. -/
theorem other_commands_ignored (parse : List Nat → Nat → Option WeatherData) (s : RxState)
    (w : DisplayWorld) (c : Nat) (p : List Nat) (cG : Nat) (pG : List Nat)
    (h1 : c ≠ 0x01) (h6 : c ≠ 0x06) (hs : IsIdle s) (hp : p.length ≤ PROTOCOL_MAX_DATA_SIZE)
    (hG : pG.length ≤ PROTOCOL_MAX_DATA_SIZE) :
    (∀ (w0 : DisplayWorld) (f : UARTFrame), f.command = c →
      ProcessReceivedFrame parse w0 f = w0) ∧
      (UartRxTask_loop parse (s, w) (frameBytes c p)).2 =
        { w with
            eventQueue := osMessageQueuePut w.eventQueue EventType.EVENT_UART_DATA_RECEIVED 0 } ∧
      IsIdle (UartRxTask_loop parse (s, w) (frameBytes c p)).1 ∧
      (UartRxTask_run (UartRxTask_loop parse (s, w) (frameBytes c p)).1
        (frameBytes cG pG)).2.map UARTFrame.message = [(cG, pG)] := by
  have hproc : ∀ (w0 : DisplayWorld) (f : UARTFrame), f.command = c →
      ProcessReceivedFrame parse w0 f = w0 := by
    intro w0 f hf
    exact ProcessReceivedFrame_other parse w0 f (by rw [hf]; exact h1) (by rw [hf]; exact h6)
  obtain ⟨hmsg, hidle⟩ := frameBytes_run s hs c p hp
  rw [loop_eq_run]
  refine ⟨hproc, ?_, hidle, (frameBytes_run _ hidle cG pG hG).1⟩
  cases hfr : (UartRxTask_run s (frameBytes c p)).2 with
  | nil => simp [hfr] at hmsg
  | cons f rest =>
    rw [hfr] at hmsg
    simp only [List.map_cons, List.cons.injEq, List.map_eq_nil_iff] at hmsg
    obtain ⟨hm, hrest⟩ := hmsg
    subst hrest
    have hfc : f.command = c := by
      have := congrArg Prod.fst hm
      simpa [UARTFrame.message] using this
    simp only [List.foldl_cons, List.foldl_nil, UartRxTask_accept, hproc w f hfc]

/-- Instance of C17: an ack frame followed by a system-status request, from the
initial state. -/
theorem other_commands_ignored_witness :
    (UartRxTask_loop (fun _ _ => none) (rxInit 256, displayInit) (frameBytes 0x07 [])).2 =
        { displayInit with
            eventQueue :=
              osMessageQueuePut displayInit.eventQueue EventType.EVENT_UART_DATA_RECEIVED 0 } ∧
      IsIdle (UartRxTask_loop (fun _ _ => none) (rxInit 256, displayInit)
        (frameBytes 0x07 [])).1 ∧
      (UartRxTask_run (UartRxTask_loop (fun _ _ => none) (rxInit 256, displayInit)
        (frameBytes 0x07 [])).1 (frameBytes 0x06 [])).2.map UARTFrame.message = [(0x06, [])] :=
  (other_commands_ignored (fun _ _ => none) (rxInit 256) displayInit 0x07 [] 0x06 []
    (by decide) (by decide) ⟨rfl, rfl, rfl⟩ (by decide) (by decide)).2

/-- C18: `SendUARTFrame` keeps the transmit permit balanced.  For a semaphore within
its bound: when no permit is available the call changes nothing, so no byte is
written, the driver is not called and the count is unchanged; when a permit is
available the bytes are handed to the driver and the permit is given back
whatever status `HAL_UART_Transmit` answers; the count after the call equals the
count before it on both paths. -/
theorem SendUARTFrame_permit_balanced (hal : List Nat → HAL_StatusTypeDef) (l : TxLink)
    (frame : UARTFrame) (hinv : l.uartTxSemaphore.count ≤ l.uartTxSemaphore.max_count) :
    (SendUARTFrame_hal hal l frame).1 = SendUARTFrame l frame ∧
      (l.uartTxSemaphore.count = 0 →
        SendUARTFrame l frame = l ∧ (SendUARTFrame_hal hal l frame).2 = none) ∧
      (0 < l.uartTxSemaphore.count →
        (SendUARTFrame l frame).uartTxSemaphore = l.uartTxSemaphore ∧
          ∃ bytes, (SendUARTFrame l frame).wire = l.wire ++ bytes ∧
            (SendUARTFrame_hal hal l frame).2 = some (hal bytes)) ∧
      (SendUARTFrame l frame).uartTxSemaphore.count = l.uartTxSemaphore.count := by
  by_cases h0 : 0 < l.uartTxSemaphore.count
  · have hrel : osSemaphoreRelease
        { l.uartTxSemaphore with count := l.uartTxSemaphore.count - 1 } = l.uartTxSemaphore := by
      have hlt : l.uartTxSemaphore.count - 1 < l.uartTxSemaphore.max_count := by omega
      have hback : l.uartTxSemaphore.count - 1 + 1 = l.uartTxSemaphore.count := by omega
      simp [osSemaphoreRelease, hlt, hback]
    have hne : l.uartTxSemaphore.count ≠ 0 := by omega
    refine ⟨?_, fun hz => absurd hz hne, fun _ => ⟨?_, ?_⟩, ?_⟩
    · simp [SendUARTFrame_hal, SendUARTFrame, osSemaphoreAcquire, h0]
    · simp [SendUARTFrame, osSemaphoreAcquire, h0, hrel]
    · exact ⟨_, by simp only [SendUARTFrame, osSemaphoreAcquire, gt_iff_lt, h0, if_true]; rfl,
        by simp only [SendUARTFrame_hal, osSemaphoreAcquire, gt_iff_lt, h0, if_true]⟩
    · simp [SendUARTFrame, osSemaphoreAcquire, h0, hrel]
  · have hz : l.uartTxSemaphore.count = 0 := by omega
    have hn : ¬ l.uartTxSemaphore.count > 0 := h0
    refine ⟨?_, fun _ => ⟨?_, ?_⟩, fun hpos => absurd hpos h0, ?_⟩
    · simp [SendUARTFrame_hal, SendUARTFrame, osSemaphoreAcquire, hn]
    · simp [SendUARTFrame, osSemaphoreAcquire, hn]
    · simp [SendUARTFrame_hal, osSemaphoreAcquire, hn]
    · simp [SendUARTFrame, osSemaphoreAcquire, hn]

/-- Instance of C18: the permit is free and the driver reports an error; the
permit is taken and the driver is not called. -/
theorem SendUARTFrame_permit_balanced_witness :
    (SendUARTFrame txInit ack_frame).uartTxSemaphore.count = txInit.uartTxSemaphore.count ∧
      (SendUARTFrame_hal (fun _ => HAL_StatusTypeDef.HAL_ERROR) txInit ack_frame).1 =
        SendUARTFrame txInit ack_frame ∧
      (SendUARTFrame { uartTxSemaphore := { max_count := 1, count := 0 }, wire := [] } ack_frame
          = { uartTxSemaphore := { max_count := 1, count := 0 }, wire := [] } ∧
        (SendUARTFrame_hal (fun _ => HAL_StatusTypeDef.HAL_OK)
          { uartTxSemaphore := { max_count := 1, count := 0 }, wire := [] } ack_frame).2 = none) :=
  ⟨(SendUARTFrame_permit_balanced (fun _ => HAL_StatusTypeDef.HAL_ERROR) txInit ack_frame
      (by decide)).2.2.2,
    (SendUARTFrame_permit_balanced (fun _ => HAL_StatusTypeDef.HAL_ERROR) txInit ack_frame
      (by decide)).1,
    (SendUARTFrame_permit_balanced (fun _ => HAL_StatusTypeDef.HAL_OK)
      { uartTxSemaphore := { max_count := 1, count := 0 }, wire := [] } ack_frame
      (by decide)).2.1 rfl⟩

/-- C19: with the event channel a bounded FIFO of capacity 20 whose put with timeout
0 fails without waiting when full, and no consumer running: after the receive
task has processed a byte stream in which it accepts N frames, starting with an
empty channel, the channel holds exactly min(N, 20) events and the task has
spent no tick waiting on it. -/
theorem event_channel_bounded (parse : List Nat → Nat → Option WeatherData) (s : RxState)
    (w : DisplayWorld) (stream : List Nat) (hcap : w.eventQueue.capacity = 20)
    (hempty : w.eventQueue.items = []) (hw : w.eventQueue.waited = 0) :
    (UartRxTask_loop parse (s, w) stream).2.eventQueue.items.length =
        min (UartRxTask_run s stream).2.length 20 ∧
      (UartRxTask_loop parse (s, w) stream).2.eventQueue.waited = 0 := by
  rw [loop_eq_run]
  obtain ⟨h1, h2⟩ := accept_fold_eventQueue parse (UartRxTask_run s stream).2 w
    (by rw [hempty]; simp)
  simp only []
  rw [h1, h2, hempty, hcap, hw]
  simp

/-- Instance of C19: two valid frames received from the initial state. -/
theorem event_channel_bounded_witness :
    (UartRxTask_loop (fun _ _ => none) (rxInit 256, displayInit)
        (frameBytes 0x07 [] ++ frameBytes 0x06 [])).2.eventQueue.items.length =
        min (UartRxTask_run (rxInit 256) (frameBytes 0x07 [] ++ frameBytes 0x06 [])).2.length 20 ∧
      (UartRxTask_loop (fun _ _ => none) (rxInit 256, displayInit)
        (frameBytes 0x07 [] ++ frameBytes 0x06 [])).2.eventQueue.waited = 0 :=
  event_channel_bounded (fun _ _ => none) (rxInit 256) displayInit
    (frameBytes 0x07 [] ++ frameBytes 0x06 []) rfl rfl rfl

/-- C21 fails on the code: the decoder checks the length field only after the
whole frame is collected.  Fed the header 0xAA 0x01 0xFF 0x00 and 254 payload
bytes 0x07 from the initial state, it is still accumulating, with
`uart_rx_index` = 258, and has stored received bytes at the accumulator offsets
132 and 257. -/
theorem decoder_exceeds_frame_size :
    (UartRxTask_run (rxInit 256)
        (0xAA :: 0x01 :: 0xFF :: 0x00 :: List.replicate 254 0x07)).1.uart_rx_index = 258 ∧
      (UartRxTask_run (rxInit 256)
        (0xAA :: 0x01 :: 0xFF :: 0x00 :: List.replicate 254 0x07)).1.frame_decoding = true ∧
      load (UartRxTask_run (rxInit 256)
        (0xAA :: 0x01 :: 0xFF :: 0x00 :: List.replicate 254 0x07)).1.uart_rx_buffer 132 = 0x07 ∧
      load (UartRxTask_run (rxInit 256)
        (0xAA :: 0x01 :: 0xFF :: 0x00 :: List.replicate 254 0x07)).1.uart_rx_buffer 257 = 0x07 := by
  decide!

/-- C22: the only exit from accumulating is completion.  After a header that
announces payload length `L`, every continuation of fewer than `L` bytes,
whatever their values, that the accumulator has room for is collected with
every write inside the arrays and leaves the decoder accumulating with no frame
accepted; so, in an accumulator of at least 8 cells, the truncated frame
0xAA 0x01 0x0A 0x00 followed by the valid frame 0xAA 0x06 0x00 0x00 results in the
valid frame not being accepted. -/
theorem truncated_frame_stalls (s : RxState) (hs : IsIdle s) (c L k : Nat) (cont : List Nat)
    (hlt : cont.length < L) (hcap : 4 + cont.length ≤ s.uart_rx_buffer.length) :
    UartRxTask_runInBounds s (0xAA :: c :: L :: k :: cont) ∧
      (UartRxTask_run s (0xAA :: c :: L :: k :: cont)).2 = [] ∧
      (UartRxTask_run s (0xAA :: c :: L :: k :: cont)).1.frame_decoding = true ∧
      (UartRxTask_run s (0xAA :: c :: L :: k :: cont)).1.uart_rx_index = 4 + cont.length ∧
      (8 ≤ s.uart_rx_buffer.length →
        UartRxTask_runInBounds s ([0xAA, 0x01, 0x0A, 0x00] ++ frameBytes 0x06 []) ∧
          (UartRxTask_run s ([0xAA, 0x01, 0x0A, 0x00] ++ frameBytes 0x06 [])).2 = [] ∧
          (UartRxTask_run s
            ([0xAA, 0x01, 0x0A, 0x00] ++ frameBytes 0x06 [])).1.frame_decoding = true) := by
  have key : ∀ (c1 L1 k1 : Nat) (cont1 : List Nat), cont1.length < L1 →
      4 + cont1.length ≤ s.uart_rx_buffer.length →
      UartRxTask_runInBounds s (PROTOCOL_START_BYTE :: c1 :: L1 :: k1 :: cont1) ∧
        (UartRxTask_run s (PROTOCOL_START_BYTE :: c1 :: L1 :: k1 :: cont1)).2 = [] ∧
        Accumulating (UartRxTask_run s (PROTOCOL_START_BYTE :: c1 :: L1 :: k1 :: cont1)).1
          (PROTOCOL_START_BYTE :: c1 :: L1 :: k1 :: cont1) := by
    intro c1 L1 k1 cont1 h1 hc1
    obtain ⟨hnone, hacc⟩ := byte_start s hs
    have hstart := start_inBounds s hs (by omega)
    have hcond : ([PROTOCOL_START_BYTE] ++ c1 :: L1 :: k1 :: cont1).length < 4 ∨
        ([PROTOCOL_START_BYTE] ++ c1 :: L1 :: k1 :: cont1).length <
          4 + load ([PROTOCOL_START_BYTE] ++ c1 :: L1 :: k1 :: cont1) 2 :=
      Or.inr (by simp [load]; omega)
    obtain ⟨hout, hacc2⟩ := run_partial (c1 :: L1 :: k1 :: cont1) [PROTOCOL_START_BYTE] _ hacc
      hcond
    have hin := run_partial_inBounds (c1 :: L1 :: k1 :: cont1) [PROTOCOL_START_BYTE] _ hacc
      hcond (by rw [inBounds_length s _ hstart]; simp; omega)
    rw [run_cons]
    refine ⟨⟨hstart, hin⟩, ?_, hacc2⟩
    simp only [hnone, Option.toList, List.nil_append]
    exact hout
  obtain ⟨h0, h1, h2⟩ := key c L k cont hlt hcap
  refine ⟨h0, h1, h2.decoding, ?_, fun h8 => ?_⟩
  · have := h2.index
    simp only [List.length_cons] at this
    show (UartRxTask_run s (PROTOCOL_START_BYTE :: c :: L :: k :: cont)).1.uart_rx_index = _
    omega
  · obtain ⟨h3, h4, h5⟩ := key 0x01 0x0A 0x00 (frameBytes 0x06 []) (by decide)
      (by simpa [frameBytes] using h8)
    exact ⟨h3, h4, h5.decoding⟩

/-- Instance of C22: a header announcing 3 payload bytes followed by two bytes,
one of them 0xAA, and the truncated frame followed by a valid one, in an
accumulator of 256 cells. -/
theorem truncated_frame_stalls_witness :
    ((UartRxTask_run (rxInit 256) [0xAA, 0x01, 0x03, 0x40, 0xAA, 0x42]).2 = [] ∧
        (UartRxTask_run (rxInit 256) [0xAA, 0x01, 0x03, 0x40, 0xAA, 0x42]).1.frame_decoding
          = true) ∧
      (UartRxTask_run (rxInit 256) ([0xAA, 0x01, 0x0A, 0x00] ++ frameBytes 0x06 [])).2 = [] :=
  have hcap : (rxInit 256).uart_rx_buffer.length = 256 := List.length_replicate 256 0
  have h := truncated_frame_stalls (rxInit 256) ⟨rfl, rfl, rfl⟩ 0x01 0x03 0x40 [0xAA, 0x42]
    (by decide) (by rw [hcap]; decide)
  ⟨⟨h.2.1, h.2.2.1⟩, (h.2.2.2.2 (by rw [hcap]; decide)).2.1⟩

/-- C23 fails on the code: the receive task announces an accepted frame with
`EVENT_UART_DATA_RECEIVED`, for which the switch of `DisplayTask` has no case, so
`weather_updated` is never set and the weather poll is skipped.  After one
get-weather frame whose payload parses to the value 9 9, the next iteration of
the display task consumes the event, leaves `current_weather` at its initial
value 0 0 and leaves the parsed value in the weather channel. -/
theorem weather_update_lost :
    (DisplayTask_iter (displayTaskInit 2 1,
        (UartRxTask_loop (fun _ _ => some [9, 9]) (rxInit 256, displayInit)
          (frameBytes 0x01 [1, 2, 4])).2)).1.current_weather = [0, 0] ∧
      (DisplayTask_iter (displayTaskInit 2 1,
        (UartRxTask_loop (fun _ _ => some [9, 9]) (rxInit 256, displayInit)
          (frameBytes 0x01 [1, 2, 4])).2)).1.weather_updated = false ∧
      (DisplayTask_iter (displayTaskInit 2 1,
        (UartRxTask_loop (fun _ _ => some [9, 9]) (rxInit 256, displayInit)
          (frameBytes 0x01 [1, 2, 4])).2)).2.weatherQueue.items = [[9, 9]] ∧
      (UartRxTask_loop (fun _ _ => some [9, 9]) (rxInit 256, displayInit)
        (frameBytes 0x01 [1, 2, 4])).2.eventQueue.items =
        [EventType.EVENT_UART_DATA_RECEIVED] ∧
      (DisplayTask_iter (displayTaskInit 2 1,
        (UartRxTask_loop (fun _ _ => some [9, 9]) (rxInit 256, displayInit)
          (frameBytes 0x01 [1, 2, 4])).2)).2.eventQueue.items = [] := by
  decide!

/-- C24: `process_stm32_command(data, length)` enters its command switch exactly
when `data[3]` equals the XOR of `data[4 .. length-1]`, which is what
`CalculateChecksum` yields on the payload; otherwise it returns with the world
unchanged: `current_city`, the event group and everything sent are as before. -/
theorem checksum_gate (get_current_weather : List Nat → Option WeatherData) (w : EspWorld)
    (data : List Nat) (length : Nat) (h4 : 4 ≤ data.length) (hlen : length ≤ data.length) :
    process_stm32_command get_current_weather w data length =
        (if load data 3 = xorFold ((data.drop 4).take (length - 4)) then
          process_stm32_command_switch get_current_weather w data length
        else w) ∧
      xorFold ((data.drop 4).take (length - 4)) =
        CalculateChecksum (data.drop 4) (length - 4) := by
  have hx : xorLoop data (length - 4) 4 0 = xorFold ((data.drop 4).take (length - 4)) := by
    rw [xorLoop_eq data (length - 4) 4 0 (by omega)]
    simp
  constructor
  · unfold process_stm32_command checksum_ok
    simp only [PROTOCOL_HEADER_SIZE, hx, beq_iff_eq]
    by_cases he : load data 3 = xorFold ((data.drop 4).take (length - 4))
    · rw [if_pos he, if_pos he.symm]
    · rw [if_neg he, if_neg (fun h => he h.symm)]
  · rw [CalculateChecksum_take _ _ (by simp; omega)]

set_option maxRecDepth 100000 in
/-- Instance of C24: a set-city frame with a wrong checksum byte, received in the
start world, changes nothing. -/
theorem checksum_gate_witness :
    process_stm32_command (fun _ => none) espInit
        ([0xAA, 0x04, 0x02, 0x00, 0x58, 0x69] ++ List.replicate 250 0) 6 = espInit :=
  (checksum_gate (fun _ => none) espInit
      ([0xAA, 0x04, 0x02, 0x00, 0x58, 0x69] ++ List.replicate 250 0) 6
      (by decide) (by decide)).1.trans (by decide)

/-- C26 fails on the code: the receive loop of the connectivity unit does not bound
`bytes_received`.  After the header 0xAA 0x01 0xFF 0x00 and 252 payload bytes
0x07 the loop is still in a frame with `bytes_received` = 256, and the next
byte is stored at `data[256]`, outside the 256-byte buffer. -/
theorem receive_buffer_overrun :
    (uart_receive_task_run espRxInit
        (0xAA :: 0x01 :: 0xFF :: 0x00 :: List.replicate 252 0x07)).1.bytes_received = 256 ∧
      (uart_receive_task_run espRxInit
        (0xAA :: 0x01 :: 0xFF :: 0x00 :: List.replicate 252 0x07)).1.frame_started = true ∧
      (uart_receive_task_run espRxInit
        (0xAA :: 0x01 :: 0xFF :: 0x00 :: List.replicate 252 0x07)).1.data.length
        = UART_BUFFER_SIZE ∧
      load (uart_receive_task_run espRxInit
        (0xAA :: 0x01 :: 0xFF :: 0x00 :: List.replicate 253 0x07)).1.data 256 = 0x07 ∧
      (uart_receive_task_run espRxInit
        (0xAA :: 0x01 :: 0xFF :: 0x00 :: List.replicate 253 0x07)).1.data.length
        = UART_BUFFER_SIZE + 1 := by
  decide!

/-- C27 fails on the code in its first part: the copy into the 32-byte temporary
uses the payload length unclamped.  A set-city frame with 40 payload bytes 0x41
passes the checksum test, and the first `strncpy` of the set-city case then
writes 40 bytes into the 32-byte `new_city`.  The second `strncpy` writes 31
bytes, so `current_city` ends as 31 bytes 0x41 and a NUL. -/
theorem city_copy_overrun :
    checksum_ok (frameBytes 0x04 (List.replicate 40 0x41) ++ List.replicate 212 0) (4 + 40)
        = true ∧
      load (frameBytes 0x04 (List.replicate 40 0x41) ++ List.replicate 212 0) 1 = CMD_SET_CITY ∧
      strncpy (List.replicate 32 0)
          ((frameBytes 0x04 (List.replicate 40 0x41) ++ List.replicate 212 0).drop
            PROTOCOL_HEADER_SIZE) (4 + 40 - PROTOCOL_HEADER_SIZE) = List.replicate 40 0x41 ∧
      (process_stm32_command (fun _ => none) espInit
          (frameBytes 0x04 (List.replicate 40 0x41) ++ List.replicate 212 0)
          (4 + 40)).current_city = List.replicate 31 0x41 ++ [0] := by
  decide!

/-- C28: `CalculateChecksum` maps concatenation to XOR: the checksum of `a ++ b` is
the XOR of the checksums of `a` and `b`; hence every permutation of a payload
has the checksum of the payload, and a frame that `ValidateFrame` accepts is
still accepted after its payload bytes are reordered. -/
theorem checksum_homomorphism (a b : List Nat) :
    CalculateChecksum (a ++ b) (a ++ b).length =
        CalculateChecksum a a.length ^^^ CalculateChecksum b b.length ∧
      (∀ q : List Nat, q.Perm a → CalculateChecksum q q.length = CalculateChecksum a a.length) ∧
      (∀ (f : UARTFrame) (q pad : List Nat), f.data = a ++ pad → f.data_length = a.length →
        q.Perm a → ValidateFrame f = true → ValidateFrame { f with data := q ++ pad } = true) := by
  refine ⟨?_, ?_, ?_⟩
  · rw [CalculateChecksum_all, CalculateChecksum_all, CalculateChecksum_all, xorFold_append]
  · intro q hq
    rw [CalculateChecksum_all, CalculateChecksum_all, xorFold_perm q a hq]
  · intro f q pad hdata hlen hq hv
    have hqlen : q.length = a.length := hq.length_eq
    have h1 := (ValidateFrame_eq_true_iff f (fun _ => by rw [hdata, hlen]; simp)).mp hv
    obtain ⟨hs, hl, hc⟩ := h1
    rw [ValidateFrame_eq_true_iff _ (fun _ => by simp [hlen, hqlen])]
    refine ⟨hs, hl, ?_⟩
    simp only
    rw [hc, hdata, hlen]
    rw [List.take_left, ← hqlen, List.take_left]
    exact (xorFold_perm q a hq).symm

/-- Instance of C28: the payload 1 2 4 reordered to 4 1 2 in a valid frame. -/
theorem checksum_homomorphism_witness :
    ValidateFrame { mkFrame 0x01 [1, 2, 4] [0, 0] with data := [4, 1, 2] ++ [0, 0] } = true :=
  (checksum_homomorphism [1, 2, 4] []).2.2 (mkFrame 0x01 [1, 2, 4] [0, 0]) [4, 1, 2] [0, 0]
    rfl rfl (by decide) (by decide)

end WeatherClock
